import Mathlib

/-!
Shallow embedding of the core of the `netflow-collector` repository
(NetFlow v5 / v9 / IPFIX wire parser, bounded flow store with hybrid
eviction, filter language, Sankey aggregation) together with proofs about
the embedded definitions.

Modelling conventions:
* Machine integers are modelled as `Nat` with explicit `% 2^w`
  truncations where the Go code truncates; byte strings are `List Nat`
  (each element a byte value).
* `time.Time` instants are modelled as `Int` nanoseconds since the Unix
  epoch; the Go zero time is modelled as `0` (`IsZero` becomes `= 0`).
  `time.Duration` is `Int` nanoseconds.
* Go maps used as template / link caches are modelled as association
  lists where a newer insertion shadows an older binding, which matches
  Go map lookup/overwrite semantics; Go's randomized map iteration order
  is fixed to insertion order.
* `sort.Slice` (an unstable sort) is modelled by `List.insertionSort`;
  every property proved about the sorted output is order-theoretic and
  holds for any sort satisfying the comparator.
* Fallible Go functions returning `(..., error)` are modelled with
  `Option` (`none` = non-nil error).
-/

namespace NFC

/-! ## Byte-level helpers (encoding/binary, big endian) -/

/-- Byte at index `i` of a byte string (out of range reads give 0; the
embedded parsers always bounds-check before reading, mirroring Go). -/
def byteAt (d : List Nat) (i : Nat) : Nat := d.getD i 0

/-- Big-endian 16-bit read at offset `i` (binary.BigEndian.Uint16). -/
def be16at (d : List Nat) (i : Nat) : Nat := 256 * byteAt d i + byteAt d (i + 1)

/-- Big-endian 32-bit read at offset `i` (binary.BigEndian.Uint32). -/
def be32at (d : List Nat) (i : Nat) : Nat :=
  256 * (256 * (256 * byteAt d i + byteAt d (i + 1)) + byteAt d (i + 2)) + byteAt d (i + 3)

/-- Big-endian 64-bit read at offset `i` (binary.BigEndian.Uint64). -/
def be64at (d : List Nat) (i : Nat) : Nat :=
  be32at d i * 4294967296 + be32at d (i + 4)

/-- Go slice expression `d[off : off+len]`. -/
def slice (d : List Nat) (off len : Nat) : List Nat := (d.drop off).take len

/-- Variable-length big-endian unsigned read, `readUint` from the parser
package: 1, 2, 4 or 8 byte fields are read big-endian and zero-extended,
any other length yields 0. -/
def readUint (data : List Nat) : Nat :=
  if data.length = 1 then byteAt data 0
  else if data.length = 2 then be16at data 0
  else if data.length = 4 then be32at data 0
  else if data.length = 8 then be64at data 0
  else 0

/-! ## Flow model (`pkg/types/flow.go`) -/

/-- Flow record (`types.Flow`).  IP addresses (`net.IP`) are byte strings;
a `nil` IP is the empty list.  Times are `Int` nanoseconds. -/
structure Flow where
  Version : Nat := 0
  SrcAddr : List Nat := []
  DstAddr : List Nat := []
  SrcPort : Nat := 0
  DstPort : Nat := 0
  Protocol : Nat := 0
  Bytes : Nat := 0
  Packets : Nat := 0
  StartTime : Int := 0
  EndTime : Int := 0
  TCPFlags : Nat := 0
  SrcAS : Nat := 0
  DstAS : Nat := 0
  InputIf : Nat := 0
  OutputIf : Nat := 0
  ExporterIP : List Nat := []
  ReceivedAt : Int := 0
  LastAccessed : Int := 0
  deriving Repr, DecidableEq, Inhabited

/-- Decimal rendering of a natural number (for `fmt.Sprintf` style keys). -/
def natStr (n : Nat) : String := toString n

/-- Rendering of a `net.IP` as Go's `ip.String()` produces it for the
values this system builds: dotted decimal for 4-byte addresses,
`<nil>` for a nil IP.  Other lengths (16-byte IPv6) use a simplified
group rendering; the RFC 5952 zero compression of the Go standard
library is outside the repository and not needed by the claims. -/
def ipString : List Nat → String
  | [a, b, c, d] =>
      natStr a ++ "." ++ natStr b ++ "." ++ natStr c ++ "." ++ natStr d
  | [] => "<nil>"
  | bs => String.intercalate ":" (bs.map natStr)

/-- FlowKey (`types.Flow.FlowKey`): direction-preserving 5-tuple key
`src:sport-dst:dport-proto`. -/
def Flow.FlowKey (f : Flow) : String :=
  ipString f.SrcAddr ++ ":" ++ natStr f.SrcPort ++ "-" ++
  ipString f.DstAddr ++ ":" ++ natStr f.DstPort ++ "-" ++ natStr f.Protocol

/-- ProtocolName (`types.Flow.ProtocolName`). -/
def Flow.ProtocolName (f : Flow) : String :=
  if f.Protocol = 1 then "ICMP"
  else if f.Protocol = 6 then "TCP"
  else if f.Protocol = 17 then "UDP"
  else if f.Protocol = 47 then "GRE"
  else if f.Protocol = 50 then "ESP"
  else if f.Protocol = 51 then "AH"
  else if f.Protocol = 58 then "ICMPv6"
  else if f.Protocol = 89 then "OSPF"
  else if f.Protocol = 132 then "SCTP"
  else natStr f.Protocol

/-! ## NetFlow v5 parser (`internal/parser/netflow_v5.go`) -/

def netflowV5HeaderSize : Nat := 24

def netflowV5RecordSize : Nat := 48

/-- Decode of one 48-byte NetFlow v5 record (the loop body of
`parseNetFlowV5`); offsets follow the canonical v5 record layout. -/
def parseV5Record (now : Int) (exporter : List Nat) (bootTime : Int)
    (record : List Nat) : Flow :=
  let firstUptime := be32at record 24
  let lastUptime := be32at record 28
  { Version := 5
    SrcAddr := slice record 0 4
    DstAddr := slice record 4 4
    SrcPort := be16at record 32
    DstPort := be16at record 34
    Protocol := byteAt record 38
    Packets := be32at record 16
    Bytes := be32at record 20
    StartTime := bootTime + (firstUptime : Int) * 1000000
    EndTime := bootTime + (lastUptime : Int) * 1000000
    TCPFlags := byteAt record 37
    SrcAS := be16at record 40
    DstAS := be16at record 42
    InputIf := be16at record 12
    OutputIf := be16at record 14
    ExporterIP := exporter
    ReceivedAt := now }

/-- Parser.parseNetFlowV5: header check, then `count` fixed 48-byte
records.  `now` stands for `time.Now()` and `exporter` for the UDP
source address. -/
def parseNetFlowV5 (now : Int) (exporter : List Nat) (data : List Nat) :
    Option (List Flow) :=
  if data.length < netflowV5HeaderSize then none
  else
    let count := be16at data 2
    let sysUptime := be32at data 4
    let unixSecs := be32at data 8
    let unixNsecs := be32at data 12
    let baseTime : Int := (unixSecs : Int) * 1000000000 + (unixNsecs : Int)
    let bootTime : Int := baseTime - (sysUptime : Int) * 1000000
    let expectedLen := netflowV5HeaderSize + count * netflowV5RecordSize
    if data.length < expectedLen then none
    else
      some ((List.range count).map (fun i =>
        parseV5Record now exporter bootTime
          (slice data (netflowV5HeaderSize + i * netflowV5RecordSize)
            netflowV5RecordSize)))

/-! ## Templates and the template cache (`internal/parser/netflow_v9.go`,
`internal/parser/ipfix.go`)

The Go parser keeps `map[uint32]map[uint16]*Template` caches keyed by the
v9 `sourceId` / IPFIX `observationDomainId` and the template id.  They are
modelled as association lists keyed by the pair, where a new insertion is
prepended and shadows any older binding (Go overwrites in place; lookup
semantics agree). -/

/-- FieldDef (`parser.FieldDef`).  The Go field `Type` is `Typ` here
because `Type` is reserved in Lean. -/
structure FieldDef where
  Typ : Nat
  Length : Nat
  deriving Repr, DecidableEq, Inhabited

/-- Template (`parser.Template`). -/
structure Template where
  ID : Nat
  FieldDefs : List FieldDef
  Length : Nat
  deriving Repr, DecidableEq, Inhabited

/-- Template cache for one protocol: `(source discriminator, template id)
→ Template`. -/
abbrev TemplateMap : Type := List ((Nat × Nat) × Template)

/-- Parser state (`parser.Parser`): the two template caches. -/
structure Parser where
  v9Templates : TemplateMap
  ipfixTemplates : TemplateMap
  deriving Inhabited

/-- Parser.New. -/
def Parser.New : Parser := ⟨[], []⟩

/-! ## NetFlow v9 / IPFIX field application

`applyV9Field` / `applyIPFIXField` are the `switch field.Type` bodies of
`parseV9Record` / `parseIPFIXRecord`: given the raw bytes of one field
they update the flow under construction.  Unhandled types leave the flow
unchanged.  Where Go reads a fixed width from a shorter slice it would
panic; those reads are modelled by `byteAt`/`be32at`/`be64at`, which pad
with zero bytes (templates produced by real exporters declare the
standard widths, and no claim depends on the panic behaviour). -/

def NF9_IN_BYTES : Nat := 1
def NF9_IN_PKTS : Nat := 2
def NF9_PROTOCOL : Nat := 4
def NF9_TCP_FLAGS : Nat := 6
def NF9_L4_SRC_PORT : Nat := 7
def NF9_IPV4_SRC_ADDR : Nat := 8
def NF9_INPUT_SNMP : Nat := 10
def NF9_L4_DST_PORT : Nat := 11
def NF9_IPV4_DST_ADDR : Nat := 12
def NF9_OUTPUT_SNMP : Nat := 14
def NF9_SRC_AS : Nat := 16
def NF9_DST_AS : Nat := 17
def NF9_LAST_SWITCHED : Nat := 21
def NF9_FIRST_SWITCHED : Nat := 22
def NF9_IPV6_SRC_ADDR : Nat := 27
def NF9_IPV6_DST_ADDR : Nat := 28

def applyV9Field (bootTime : Int) (typ : Nat) (fieldData : List Nat) (fl : Flow) : Flow :=
  if typ = NF9_IPV4_SRC_ADDR then { fl with SrcAddr := fieldData }
  else if typ = NF9_IPV4_DST_ADDR then { fl with DstAddr := fieldData }
  else if typ = NF9_IPV6_SRC_ADDR then { fl with SrcAddr := fieldData }
  else if typ = NF9_IPV6_DST_ADDR then { fl with DstAddr := fieldData }
  else if typ = NF9_L4_SRC_PORT then { fl with SrcPort := be16at fieldData 0 }
  else if typ = NF9_L4_DST_PORT then { fl with DstPort := be16at fieldData 0 }
  else if typ = NF9_PROTOCOL then { fl with Protocol := byteAt fieldData 0 }
  else if typ = NF9_IN_BYTES then { fl with Bytes := readUint fieldData }
  else if typ = NF9_IN_PKTS then { fl with Packets := readUint fieldData }
  else if typ = NF9_TCP_FLAGS then { fl with TCPFlags := byteAt fieldData 0 }
  else if typ = NF9_SRC_AS then { fl with SrcAS := readUint fieldData % 4294967296 }
  else if typ = NF9_DST_AS then { fl with DstAS := readUint fieldData % 4294967296 }
  else if typ = NF9_INPUT_SNMP then { fl with InputIf := readUint fieldData % 65536 }
  else if typ = NF9_OUTPUT_SNMP then { fl with OutputIf := readUint fieldData % 65536 }
  else if typ = NF9_FIRST_SWITCHED then
    { fl with StartTime := bootTime + (be32at fieldData 0 : Int) * 1000000 }
  else if typ = NF9_LAST_SWITCHED then
    { fl with EndTime := bootTime + (be32at fieldData 0 : Int) * 1000000 }
  else fl

/-- Field-by-field decode loop of `parseV9Record` and
`parseIPFIXRecord`: walk the template field list, bounds-check each
field against the record, apply it, and advance the offset by the
field's declared length.  A record too short for the template yields
`none` (Go returns `nil`). -/
def parseRecordFields (apply : Nat → List Nat → Flow → Flow) :
    List FieldDef → List Nat → Nat → Flow → Option Flow
  | [], _, _, fl => some fl
  | fd :: defs, record, offset, fl =>
      if record.length < offset + fd.Length then none
      else parseRecordFields apply defs record (offset + fd.Length)
        (apply fd.Typ (slice record offset fd.Length) fl)

/-- Parser.parseV9Record. -/
def parseV9Record (record : List Nat) (template : Template)
    (exporter : List Nat) (bootTime now : Int) : Option Flow :=
  parseRecordFields (applyV9Field bootTime) template.FieldDefs record 0
    { Version := 9, ExporterIP := exporter, ReceivedAt := now }

/-- Parser.parseV9DataFlowSet: `floor(len / recordLen)` records, trailing
padding ignored; `nil` records (template/record length mismatch) are
skipped. -/
def parseV9DataFlowSet (data : List Nat) (template : Template)
    (exporter : List Nat) (bootTime now : Int) : List Flow :=
  if template.Length = 0 then []
  else
    (List.range (data.length / template.Length)).filterMap (fun i =>
      parseV9Record (slice data (i * template.Length) template.Length)
        template exporter bootTime now)

/-- Field specifier loop of `parseV9Templates`: reads exactly `count`
4-byte (type, length) specifiers.  The caller has already checked that
`4 * count` bytes are available. -/
def readV9FieldSpecs : Nat → List Nat → List FieldDef
  | 0, _ => []
  | Nat.succ n, t1 :: t2 :: l1 :: l2 :: rest =>
      ⟨256 * t1 + t2, 256 * l1 + l2⟩ :: readV9FieldSpecs n rest
  | Nat.succ _, _ => []

/-- Parser.parseV9Templates: iterate (templateId, fieldCount, fields…)
blocks, installing each template under `(sourceId, templateId)`.  `fuel`
bounds the iteration count; every iteration consumes at least 4 bytes, so
the caller's `fuel = data.length + 1` can never be exhausted. -/
def parseV9TemplatesLoop (sourceID : Nat) :
    Nat → List Nat → TemplateMap → TemplateMap
  | 0, _, acc => acc
  | Nat.succ fuel, t1 :: t2 :: c1 :: c2 :: rest, acc =>
      let templateID := 256 * t1 + t2
      let fieldCount := 256 * c1 + c2
      if rest.length < fieldCount * 4 then acc
      else
        let defs := readV9FieldSpecs fieldCount rest
        parseV9TemplatesLoop sourceID fuel (rest.drop (fieldCount * 4))
          (((sourceID, templateID),
            ⟨templateID, defs, (defs.map (·.Length)).sum⟩) :: acc)
  | Nat.succ _, _, acc => acc

def parseV9Templates (data : List Nat) (sourceID : Nat) (m : TemplateMap) :
    TemplateMap :=
  parseV9TemplatesLoop sourceID (data.length + 1) data m

def netflowV9HeaderSize : Nat := 20

/-- FlowSet loop of `Parser.parseNetFlowV9`: at most `count` flowsets,
each with a 4-byte (id, length) preamble.  Malformed lengths stop the
loop; template flowsets update the cache; data flowsets with an unknown
template id are skipped silently. -/
def parseV9Sets (exporter : List Nat) (bootTime now : Int) (sourceID : Nat) :
    Nat → List Nat → TemplateMap → (List Flow × TemplateMap)
  | 0, _, m => ([], m)
  | Nat.succ n, a :: b :: c :: e :: rest, m =>
      let flowsetID := 256 * a + b
      let flowsetLen := 256 * c + e
      if flowsetLen < 4 ∨ rest.length + 4 < flowsetLen then ([], m)
      else
        let flowsetData := rest.take (flowsetLen - 4)
        let next := rest.drop (flowsetLen - 4)
        if flowsetID = 0 then
          parseV9Sets exporter bootTime now sourceID n next
            (parseV9Templates flowsetData sourceID m)
        else if flowsetID = 1 then
          parseV9Sets exporter bootTime now sourceID n next m
        else if 256 ≤ flowsetID then
          match List.lookup (sourceID, flowsetID) m with
          | some template =>
              let parsed := parseV9DataFlowSet flowsetData template exporter bootTime now
              let r := parseV9Sets exporter bootTime now sourceID n next m
              (parsed ++ r.1, r.2)
          | none => parseV9Sets exporter bootTime now sourceID n next m
        else
          parseV9Sets exporter bootTime now sourceID n next m
  | Nat.succ _, _, m => ([], m)

/-- Parser.parseNetFlowV9. -/
def parseNetFlowV9 (p : Parser) (now : Int) (exporter : List Nat)
    (data : List Nat) : Option (List Flow × Parser) :=
  if data.length < netflowV9HeaderSize then none
  else
    let count := be16at data 2
    let sysUptime := be32at data 4
    let unixSecs := be32at data 8
    let sourceID := be32at data 16
    let bootTime : Int := (unixSecs : Int) * 1000000000 - (sysUptime : Int) * 1000000
    let r := parseV9Sets exporter bootTime now sourceID count
      (data.drop netflowV9HeaderSize) p.v9Templates
    some (r.1, { p with v9Templates := r.2 })

/-! ## IPFIX parser (`internal/parser/ipfix.go`) -/

def IPFIX_OCTET_DELTA_COUNT : Nat := 1
def IPFIX_PACKET_DELTA_COUNT : Nat := 2
def IPFIX_PROTOCOL_IDENTIFIER : Nat := 4
def IPFIX_TCP_CONTROL_BITS : Nat := 6
def IPFIX_SOURCE_TRANSPORT_PORT : Nat := 7
def IPFIX_SOURCE_IPV4_ADDRESS : Nat := 8
def IPFIX_INGRESS_INTERFACE : Nat := 10
def IPFIX_DEST_TRANSPORT_PORT : Nat := 11
def IPFIX_DEST_IPV4_ADDRESS : Nat := 12
def IPFIX_EGRESS_INTERFACE : Nat := 14
def IPFIX_BGP_SOURCE_AS : Nat := 16
def IPFIX_BGP_DEST_AS : Nat := 17
def IPFIX_FLOW_END_SYS_UP_TIME : Nat := 21
def IPFIX_FLOW_START_SYS_UP_TIME : Nat := 22
def IPFIX_SOURCE_IPV6_ADDRESS : Nat := 27
def IPFIX_DEST_IPV6_ADDRESS : Nat := 28
def IPFIX_FLOW_START_MILLISEC : Nat := 152
def IPFIX_FLOW_END_MILLISEC : Nat := 153

/-- Interpretation of `time.UnixMilli(int64(ms))` for a 64-bit unsigned
read: the cast to `int64` wraps values at `2^63`. -/
def unixMilliOfU64 (ms : Nat) : Int :=
  (if ms < 9223372036854775808 then (ms : Int) else (ms : Int) - 18446744073709551616) * 1000000

def applyIPFIXField (baseTime : Int) (typ : Nat) (fieldData : List Nat) (fl : Flow) : Flow :=
  if typ = IPFIX_SOURCE_IPV4_ADDRESS then { fl with SrcAddr := fieldData }
  else if typ = IPFIX_DEST_IPV4_ADDRESS then { fl with DstAddr := fieldData }
  else if typ = IPFIX_SOURCE_IPV6_ADDRESS then { fl with SrcAddr := fieldData }
  else if typ = IPFIX_DEST_IPV6_ADDRESS then { fl with DstAddr := fieldData }
  else if typ = IPFIX_SOURCE_TRANSPORT_PORT then { fl with SrcPort := be16at fieldData 0 }
  else if typ = IPFIX_DEST_TRANSPORT_PORT then { fl with DstPort := be16at fieldData 0 }
  else if typ = IPFIX_PROTOCOL_IDENTIFIER then { fl with Protocol := byteAt fieldData 0 }
  else if typ = IPFIX_OCTET_DELTA_COUNT then { fl with Bytes := readUint fieldData }
  else if typ = IPFIX_PACKET_DELTA_COUNT then { fl with Packets := readUint fieldData }
  else if typ = IPFIX_TCP_CONTROL_BITS then
    (if 1 ≤ fieldData.length then { fl with TCPFlags := byteAt fieldData (fieldData.length - 1) } else fl)
  else if typ = IPFIX_BGP_SOURCE_AS then { fl with SrcAS := readUint fieldData % 4294967296 }
  else if typ = IPFIX_BGP_DEST_AS then { fl with DstAS := readUint fieldData % 4294967296 }
  else if typ = IPFIX_INGRESS_INTERFACE then { fl with InputIf := readUint fieldData % 65536 }
  else if typ = IPFIX_EGRESS_INTERFACE then { fl with OutputIf := readUint fieldData % 65536 }
  else if typ = IPFIX_FLOW_START_SYS_UP_TIME then
    { fl with StartTime := baseTime - (be32at fieldData 0 : Int) * 1000000 }
  else if typ = IPFIX_FLOW_END_SYS_UP_TIME then
    { fl with EndTime := baseTime - (be32at fieldData 0 : Int) * 1000000 }
  else if typ = IPFIX_FLOW_START_MILLISEC then
    { fl with StartTime := unixMilliOfU64 (be64at fieldData 0) }
  else if typ = IPFIX_FLOW_END_MILLISEC then
    { fl with EndTime := unixMilliOfU64 (be64at fieldData 0) }
  else fl

/-- Parser.parseIPFIXRecord. -/
def parseIPFIXRecord (record : List Nat) (template : Template)
    (exporter : List Nat) (baseTime now : Int) : Option Flow :=
  parseRecordFields (applyIPFIXField baseTime) template.FieldDefs record 0
    { Version := 10, ExporterIP := exporter, ReceivedAt := now }

/-- Parser.parseIPFIXDataSet. -/
def parseIPFIXDataSet (data : List Nat) (template : Template)
    (exporter : List Nat) (baseTime now : Int) : List Flow :=
  if template.Length = 0 then []
  else
    (List.range (data.length / template.Length)).filterMap (fun i =>
      parseIPFIXRecord (slice data (i * template.Length) template.Length)
        template exporter baseTime now)

/-- Field specifier loop of `parseIPFIXTemplates`: reads up to `count`
specifiers while at least 4 bytes remain.  A set enterprise bit
(`fieldType & 0x8000`, i.e. `fieldType ≥ 0x8000` for a 16-bit value) is
stripped (`fieldType & 0x7FFF = fieldType % 0x8000`) and the following
4-byte enterprise number is skipped when present; the field itself is
appended to the template either way and its length is added to the
template's record length.  Returns the parsed specifiers, the summed
field length, and the number of bytes consumed. -/
def parseIPFIXFieldSpecs : Nat → List Nat → (List FieldDef × Nat × Nat)
  | 0, _ => ([], 0, 0)
  | Nat.succ n, t1 :: t2 :: l1 :: l2 :: rest =>
      let fieldType := 256 * t1 + t2
      let fieldLen := 256 * l1 + l2
      let stripped := fieldType % 32768
      if 32768 ≤ fieldType then
        match rest with
        | _ :: _ :: _ :: _ :: rest2 =>
            let r := parseIPFIXFieldSpecs n rest2
            (⟨stripped, fieldLen⟩ :: r.1, fieldLen + r.2.1, 8 + r.2.2)
        | _ =>
            let r := parseIPFIXFieldSpecs n rest
            (⟨stripped, fieldLen⟩ :: r.1, fieldLen + r.2.1, 4 + r.2.2)
      else
        let r := parseIPFIXFieldSpecs n rest
        (⟨stripped, fieldLen⟩ :: r.1, fieldLen + r.2.1, 4 + r.2.2)
  | Nat.succ _, _ => ([], 0, 0)

/-- Template record loop of `Parser.parseIPFIXTemplates`.  `fuel` bounds
the iteration count; every iteration consumes at least 4 bytes so the
caller's `data.length + 1` is never exhausted. -/
def parseIPFIXTemplatesLoop (obsD : Nat) :
    Nat → List Nat → TemplateMap → TemplateMap
  | 0, _, acc => acc
  | Nat.succ fuel, t1 :: t2 :: c1 :: c2 :: rest, acc =>
      let templateID := 256 * t1 + t2
      let fieldCount := 256 * c1 + c2
      let r := parseIPFIXFieldSpecs fieldCount rest
      parseIPFIXTemplatesLoop obsD fuel (rest.drop r.2.2)
        (((obsD, templateID), ⟨templateID, r.1, r.2.1⟩) :: acc)
  | Nat.succ _, _, acc => acc

/-- Parser.parseIPFIXTemplates. -/
def parseIPFIXTemplates (data : List Nat) (obsD : Nat) (m : TemplateMap) :
    TemplateMap :=
  parseIPFIXTemplatesLoop obsD (data.length + 1) data m

def ipfixHeaderSize : Nat := 16

/-- Set loop of `Parser.parseIPFIX`, over the region bounded by the
header's total-length field.  `fuel` bounds the iteration count; every
iteration consumes at least 4 bytes so the caller's `body.length + 1` is
never exhausted. -/
def parseIPFIXSets (exporter : List Nat) (baseTime now : Int) (obsD : Nat) :
    Nat → List Nat → TemplateMap → (List Flow × TemplateMap)
  | 0, _, m => ([], m)
  | Nat.succ fuel, a :: b :: c :: e :: rest, m =>
      let setID := 256 * a + b
      let setLen := 256 * c + e
      if setLen < 4 ∨ rest.length + 4 < setLen then ([], m)
      else
        let setData := rest.take (setLen - 4)
        let next := rest.drop (setLen - 4)
        if setID = 2 then
          parseIPFIXSets exporter baseTime now obsD fuel next
            (parseIPFIXTemplates setData obsD m)
        else if setID = 3 then
          parseIPFIXSets exporter baseTime now obsD fuel next m
        else if 256 ≤ setID then
          match List.lookup (obsD, setID) m with
          | some template =>
              let parsed := parseIPFIXDataSet setData template exporter baseTime now
              let r := parseIPFIXSets exporter baseTime now obsD fuel next m
              (parsed ++ r.1, r.2)
          | none => parseIPFIXSets exporter baseTime now obsD fuel next m
        else
          parseIPFIXSets exporter baseTime now obsD fuel next m
  | Nat.succ _, _, m => ([], m)

/-- Parser.parseIPFIX. -/
def parseIPFIX (p : Parser) (now : Int) (exporter : List Nat)
    (data : List Nat) : Option (List Flow × Parser) :=
  if data.length < ipfixHeaderSize then none
  else
    let length := be16at data 2
    let exportTime := be32at data 4
    let obsD := be32at data 12
    if data.length < length then none
    else
      let baseTime : Int := (exportTime : Int) * 1000000000
      let body := (data.take length).drop ipfixHeaderSize
      let r := parseIPFIXSets exporter baseTime now obsD (body.length + 1) body
        p.ipfixTemplates
      some (r.1, { p with ipfixTemplates := r.2 })

/-! ## Template-set encodings (inputs for the enterprise-bit analysis)

These encoders construct well-formed IPFIX Template Set payloads; they
are input constructions for theorems, not part of the repository. -/

/-- Source description of one template field: `ent = some e` encodes the
field with the enterprise bit set and enterprise number `e`. -/
structure TField where
  typ : Nat
  len : Nat
  ent : Option Nat
  deriving Repr, DecidableEq

/-- Wire encoding of one field specifier (type/length big-endian, the
enterprise bit ored into the type, the 4-byte enterprise number
following when present). -/
def encodeTField (f : TField) : List Nat :=
  match f.ent with
  | none => [f.typ / 256, f.typ % 256, f.len / 256, f.len % 256]
  | some e =>
      [(32768 + f.typ) / 256, (32768 + f.typ) % 256, f.len / 256, f.len % 256,
       e / 16777216 % 256, e / 65536 % 256, e / 256 % 256, e % 256]

def encodeTFields : List TField → List Nat
  | [] => []
  | f :: rest => encodeTField f ++ encodeTFields rest

/-- Wire encoding of a Template Set payload holding one template record:
template id, field count, field specifiers. -/
def encodeTemplate (tid : Nat) (fields : List TField) : List Nat :=
  [tid / 256, tid % 256, fields.length / 256, fields.length % 256] ++
    encodeTFields fields

/-- The field type ids interpreted by `applyIPFIXField`; any other type
leaves the flow unchanged. -/
def ipfixHandledTypes : List Nat :=
  [IPFIX_SOURCE_IPV4_ADDRESS, IPFIX_DEST_IPV4_ADDRESS,
   IPFIX_SOURCE_IPV6_ADDRESS, IPFIX_DEST_IPV6_ADDRESS,
   IPFIX_SOURCE_TRANSPORT_PORT, IPFIX_DEST_TRANSPORT_PORT,
   IPFIX_PROTOCOL_IDENTIFIER, IPFIX_OCTET_DELTA_COUNT,
   IPFIX_PACKET_DELTA_COUNT, IPFIX_TCP_CONTROL_BITS,
   IPFIX_BGP_SOURCE_AS, IPFIX_BGP_DEST_AS,
   IPFIX_INGRESS_INTERFACE, IPFIX_EGRESS_INTERFACE,
   IPFIX_FLOW_START_SYS_UP_TIME, IPFIX_FLOW_END_SYS_UP_TIME,
   IPFIX_FLOW_START_MILLISEC, IPFIX_FLOW_END_MILLISEC]

/-- Parser.Parse: dispatch on the 16-bit version field. -/
def Parser.Parse (p : Parser) (now : Int) (exporter : List Nat)
    (data : List Nat) : Option (List Flow × Parser) :=
  if data.length < 2 then none
  else
    let version := be16at data 0
    if version = 5 then (parseNetFlowV5 now exporter data).map (fun fl => (fl, p))
    else if version = 9 then parseNetFlowV9 p now exporter data
    else if version = 10 then parseIPFIX p now exporter data
    else none

/-! ## Flow store (`internal/store/store.go`)

The store's float rate fields (`FlowsPerSecond`, `BytesPerSecond`) and
the rolling-window bookkeeping (`lastStatsUpdate`, `flowsInWindow`,
`bytesInWindow`) are wall-clock/floating-point derived and do not
influence the stored flows; they are omitted from the model. -/

/-- EvictionConfig (`store.EvictionConfig`); the Go `float64` percentage
is modelled as an exact rational. -/
structure EvictionConfig where
  TopKPercent : ℚ := 1
  LRUWindow : Int := 300000000000
  deriving Repr, DecidableEq, Inhabited

/-- DefaultEvictionConfig: top 1 % elephant flows, 5-minute LRU window. -/
def DefaultEvictionConfig : EvictionConfig :=
  { TopKPercent := 1, LRUWindow := 300000000000 }

/-- The derived Top-K count,
`topKCount := int(float64(maxFlows) * TopKPercent / 100.0); if < 0 { 0 }`.
For an exact rational `p`, `int(maxFlows * p / 100)` (truncation towards
zero, then clamping negatives to zero) equals
`((maxFlows * p.num).toNat) / (100 * p.den)`: nonnegative values truncate
to the floor, negative values clamp to 0 via `Int.toNat`. -/
def topKCountOf (maxFlows : Nat) (pct : ℚ) : Nat :=
  ((maxFlows : Int) * pct.num).toNat / (100 * pct.den)

/-- Stats (`store.Stats`), without the two float rate fields. -/
structure Stats where
  TotalFlows : Nat := 0
  TotalBytes : Nat := 0
  TotalPackets : Nat := 0
  V5Flows : Nat := 0
  V9Flows : Nat := 0
  IPFIXFlows : Nat := 0
  UniqueExporters : Nat := 0
  deriving Repr, DecidableEq, Inhabited

/-- EvictionStats (`store.EvictionStats`). -/
structure EvictionStats where
  TotalEvicted : Nat := 0
  FIFOEvicted : Nat := 0
  TopKProtected : Nat := 0
  LRUProtected : Nat := 0
  deriving Repr, DecidableEq, Inhabited

/-- FlowStore (`store.FlowStore`); the `exporters` set is an
insertion-ordered duplicate-free list. -/
structure FlowStore where
  flows : List Flow := []
  maxFlows : Nat := 100000
  stats : Stats := {}
  exporters : List String := []
  evictionConfig : EvictionConfig := DefaultEvictionConfig
  evictionStats : EvictionStats := {}
  deriving Repr, DecidableEq, Inhabited

/-- NewWithConfig (`store.NewWithConfig`): a zero `maxFlows` defaults to
100000. -/
def NewWithConfig (maxFlows : Nat) (cfg : EvictionConfig) : FlowStore :=
  { flows := []
    maxFlows := if maxFlows = 0 then 100000 else maxFlows
    stats := {}
    exporters := []
    evictionConfig := cfg
    evictionStats := {} }

/-- Classification outcome of one flow in an eviction pass. -/
inductive ProtReason where
  | topk
  | lru
  deriving Repr, DecidableEq

/-- Step 1 of `evictFlows`: the byte-count threshold, the
`topKCount`-th largest byte count among current flows (0 when Top-K is
disabled or not applicable). -/
def topKThresholdOf (flows : List Flow) (topKCount : Nat) : Nat :=
  if 0 < topKCount ∧ topKCount < flows.length then
    (List.insertionSort (fun a b => b ≤ a) (flows.map (fun f => f.Bytes))).getD
      (topKCount - 1) 0
  else 0

/-- Step 2 of `evictFlows`: classify each flow, in insertion order, as
Top-K protected (bytes at or above the threshold, while fewer than
`topKCount` flows have been so marked), LRU protected (`LastAccessed`
non-zero and within `LRUWindow` of `now`), or unprotected (`none`).
`k` is the running count of Top-K marks. -/
def classifyFlows (now : Int) (cfg : EvictionConfig) (thr topKCount : Nat) :
    List Flow → Nat → List (Option ProtReason)
  | [], _ => []
  | f :: rest, k =>
      if 0 < thr ∧ thr ≤ f.Bytes ∧ k < topKCount then
        some ProtReason.topk :: classifyFlows now cfg thr topKCount rest (k + 1)
      else if f.LastAccessed ≠ 0 ∧ now - f.LastAccessed < cfg.LRUWindow then
        some ProtReason.lru :: classifyFlows now cfg thr topKCount rest k
      else
        none :: classifyFlows now cfg thr topKCount rest k

/-- Indices (starting at `s`) whose classification satisfies `p`, in
order. -/
def idxWhere (p : Option ProtReason → Bool) :
    List (Option ProtReason) → Nat → List Nat
  | [], _ => []
  | c :: rest, s =>
      if p c then s :: idxWhere p rest (s + 1) else idxWhere p rest (s + 1)

/-- Step 5 of `evictFlows`: rebuild the flow slice without the removed
indices (`s` is the index of the first element). -/
def removeByIdx (toRemove : List Nat) : List Flow → Nat → List Flow
  | [], _ => []
  | f :: rest, s =>
      if toRemove.contains s then removeByIdx toRemove rest (s + 1)
      else f :: removeByIdx toRemove rest (s + 1)

/-- The Top-K count of one eviction pass. -/
def topKCountFS (fs : FlowStore) : Nat :=
  topKCountOf fs.maxFlows fs.evictionConfig.TopKPercent

/-- The byte threshold of one eviction pass (step 1). -/
def thrFS (fs : FlowStore) : Nat :=
  topKThresholdOf fs.flows (topKCountFS fs)

/-- The classification list of one eviction pass (step 2), parallel to
`fs.flows`. -/
def clsFS (now : Int) (fs : FlowStore) : List (Option ProtReason) :=
  classifyFlows now fs.evictionConfig (thrFS fs) (topKCountFS fs) fs.flows 0

/-- Indices of unprotected flows, oldest (lowest index) first. -/
def evictableFS (now : Int) (fs : FlowStore) : List Nat :=
  idxWhere (fun c => c = none) (clsFS now fs) 0

/-- Indices of LRU-protected flows, in insertion order. -/
def lruIdxFS (now : Int) (fs : FlowStore) : List Nat :=
  idxWhere (fun c => c = some ProtReason.lru) (clsFS now fs) 0

/-- Indices of LRU-protected flows sorted by ascending `LastAccessed`
(step 4's sort). -/
def lruSortedFS (now : Int) (fs : FlowStore) : List Nat :=
  (List.insertionSort (fun a b => a.2 ≤ b.2)
    ((lruIdxFS now fs).map (fun i => (i, (fs.flows.getD i default).LastAccessed)))).map
    (fun q => q.1)

/-- Steps 3–4 of `evictFlows`: the indices removed by one pass — the
oldest unprotected flows up to `toEvict`, then, if the budget is unmet,
LRU-protected flows in ascending `LastAccessed` order.  Top-K protected
flows are never selected. -/
def evictRemovedIdx (now : Int) (fs : FlowStore) : List Nat :=
  let toEvict := fs.flows.length - fs.maxFlows
  let removed1 := (evictableFS now fs).take toEvict
  if removed1.length < toEvict then
    removed1 ++ (lruSortedFS now fs).take (toEvict - removed1.length)
  else removed1

/-- FlowStore.evictFlows: the hybrid Top-K + LRU + FIFO eviction pass. -/
def evictFlows (now : Int) (fs : FlowStore) : FlowStore :=
  let toEvict := fs.flows.length - fs.maxFlows
  if toEvict = 0 then fs
  else
    let toRemove := evictRemovedIdx now fs
    let lruRemoved := toRemove.length - ((evictableFS now fs).take toEvict).length
    { fs with
      flows := removeByIdx toRemove fs.flows 0
      evictionStats :=
        { TotalEvicted := fs.evictionStats.TotalEvicted + toRemove.length
          FIFOEvicted := fs.evictionStats.FIFOEvicted + toRemove.length
          TopKProtected := (clsFS now fs).countP (fun c => c = some ProtReason.topk)
          LRUProtected := (clsFS now fs).countP (fun c => c = some ProtReason.lru)
            - lruRemoved } }

/-- Per-flow statistics/append step of the loop in `FlowStore.Add`. -/
def addOne (fs : FlowStore) (f : Flow) : FlowStore :=
  { fs with
    stats :=
      { fs.stats with
        TotalFlows := fs.stats.TotalFlows + 1
        TotalBytes := fs.stats.TotalBytes + f.Bytes
        TotalPackets := fs.stats.TotalPackets + f.Packets
        V5Flows := if f.Version = 5 then fs.stats.V5Flows + 1 else fs.stats.V5Flows
        V9Flows := if f.Version = 9 then fs.stats.V9Flows + 1 else fs.stats.V9Flows
        IPFIXFlows := if f.Version = 10 then fs.stats.IPFIXFlows + 1
          else fs.stats.IPFIXFlows }
    exporters :=
      if f.ExporterIP ≠ [] ∧ ¬ fs.exporters.contains (ipString f.ExporterIP)
      then fs.exporters ++ [ipString f.ExporterIP]
      else fs.exporters
    flows := fs.flows ++ [f] }

/-- FlowStore.Add: append the batch in arrival order, updating totals,
then run the hybrid eviction when over `maxFlows`.  (The once-per-second
rate recomputation is wall-clock bookkeeping, omitted.) -/
def FlowStore.Add (fs : FlowStore) (now : Int) (newFlows : List Flow) : FlowStore :=
  if newFlows.isEmpty then fs
  else
    let fs1 := newFlows.foldl addOne fs
    if fs1.maxFlows < fs1.flows.length then evictFlows now fs1 else fs1

/-- FlowStore.GetFlowCount. -/
def FlowStore.GetFlowCount (fs : FlowStore) : Nat := fs.flows.length

/-- Mark loop of `FlowStore.MarkFlowsAccessed`: walk the stored flows in
order; a flow whose `FlowKey` is in the key set gets `LastAccessed :=
now`; the loop stops once the number of marked flows reaches the number
of keys passed in. -/
def markLoop (now : Int) (keySet : List String) (cap : Nat) :
    List Flow → Nat → List Flow
  | [], _ => []
  | f :: rest, marked =>
      if keySet.contains f.FlowKey then
        let f2 := { f with LastAccessed := now }
        if cap ≤ marked + 1 then f2 :: rest
        else f2 :: markLoop now keySet cap rest (marked + 1)
      else f :: markLoop now keySet cap rest marked

/-- FlowStore.MarkFlowsAccessed. -/
def FlowStore.MarkFlowsAccessed (fs : FlowStore) (now : Int)
    (flowKeys : List String) : FlowStore :=
  if flowKeys.isEmpty then fs
  else { fs with flows := markLoop now flowKeys flowKeys.length fs.flows 0 }

/-- Single-key variant `FlowStore.MarkFlowAccessed`: marks only the
first stored record with the given key (the Go loop breaks after one
match). -/
def markFirst (now : Int) (flowKey : String) : List Flow → List Flow
  | [] => []
  | f :: rest =>
      if f.FlowKey = flowKey then { f with LastAccessed := now } :: rest
      else f :: markFirst now flowKey rest

def FlowStore.MarkFlowAccessed (fs : FlowStore) (now : Int) (flowKey : String) :
    FlowStore :=
  { fs with flows := markFirst now flowKey fs.flows }

/-- First-match indices used to describe `MarkFlowsAccessed`: indices
(from `s`) of flows whose key is in the key set, in storage order. -/
def matchIdx (keySet : List String) : List Flow → Nat → List Nat
  | [], _ => []
  | f :: rest, s =>
      if keySet.contains f.FlowKey then s :: matchIdx keySet rest (s + 1)
      else matchIdx keySet rest (s + 1)

/-! ## Service name resolution (`internal/resolver/services.go`) -/

/-- commonServices: port → service name, shared by TCP and UDP. -/
def commonServices : List (Nat × String) :=
  [(7, "echo"), (20, "ftp-data"), (21, "ftp"), (22, "ssh"), (23, "telnet"),
   (25, "smtp"), (53, "dns"), (67, "dhcp-s"), (68, "dhcp-c"), (69, "tftp"),
   (80, "http"), (88, "kerberos"), (110, "pop3"), (119, "nntp"), (123, "ntp"),
   (135, "msrpc"), (137, "netbios-ns"), (138, "netbios-dgm"),
   (139, "netbios-ssn"), (143, "imap"), (161, "snmp"), (162, "snmp-trap"),
   (179, "bgp"), (389, "ldap"), (443, "https"), (445, "smb"),
   (464, "kpasswd"), (465, "smtps"), (500, "isakmp"), (514, "syslog"),
   (515, "printer"), (520, "rip"), (546, "dhcpv6-c"), (547, "dhcpv6-s"),
   (587, "submission"), (636, "ldaps"), (853, "dns-tls"), (873, "rsync"),
   (902, "vmware"), (989, "ftps-data"), (990, "ftps"), (993, "imaps"),
   (995, "pop3s"), (1080, "socks"), (1194, "openvpn"), (1433, "mssql"),
   (1434, "mssql-m"), (1521, "oracle"), (1701, "l2tp"), (1723, "pptp"),
   (1812, "radius"), (1813, "radius-acct"), (1883, "mqtt"), (2049, "nfs"),
   (2082, "cpanel"), (2083, "cpanel-ssl"), (2086, "whm"), (2087, "whm-ssl"),
   (2181, "zookeeper"), (2222, "ssh-alt"), (2375, "docker"),
   (2376, "docker-ssl"), (3000, "grafana"), (3128, "squid"), (3268, "gc"),
   (3269, "gc-ssl"), (3306, "mysql"), (3389, "rdp"), (3690, "svn"),
   (4000, "remoteanything"), (4443, "https-alt"), (4500, "ipsec-nat"),
   (4567, "tram"), (5000, "upnp"), (5060, "sip"), (5061, "sips"),
   (5222, "xmpp-c"), (5269, "xmpp-s"), (5432, "postgres"), (5672, "amqp"),
   (5900, "vnc"), (5938, "teamviewer"), (5984, "couchdb"), (5985, "winrm"),
   (5986, "winrm-ssl"), (6379, "redis"), (6443, "k8s-api"),
   (6514, "syslog-tls"), (6667, "irc"), (6697, "irc-ssl"), (7001, "weblogic"),
   (7002, "weblogic-ssl"), (8000, "http-alt"), (8008, "http-alt"),
   (8080, "http-proxy"), (8081, "http-alt"), (8123, "polipo"),
   (8140, "puppet"), (8443, "https-alt"), (8444, "https-alt"),
   (8500, "consul"), (8888, "http-alt"), (9000, "php-fpm"),
   (9001, "tor-orport"), (9042, "cassandra"), (9090, "prometheus"),
   (9091, "transmission"), (9092, "kafka"), (9100, "jetdirect"),
   (9200, "elasticsearch"), (9300, "elasticsearch"), (9418, "git"),
   (9993, "zerotier"), (9999, "abyss"), (10000, "webmin"),
   (10050, "zabbix-agent"), (10051, "zabbix"), (10443, "https-alt"),
   (11211, "memcached"), (11371, "hkp"), (15672, "rabbitmq-mgmt"),
   (17500, "dropbox"), (25565, "minecraft"), (27017, "mongodb"),
   (27018, "mongodb"), (28015, "rethinkdb"), (32400, "plex"),
   (50000, "sap"), (51413, "bittorrent"), (49000, "tr-064")]

/-- tcpServices: TCP-specific service names. -/
def tcpServices : List (Nat × String) :=
  [(1, "tcpmux"), (9, "discard"), (13, "daytime"), (37, "time"),
   (79, "finger"), (109, "pop2"), (111, "rpcbind"), (113, "ident"),
   (465, "smtps"), (513, "rlogin"), (543, "klogin"), (544, "kshell"),
   (1099, "rmiregistry"), (2000, "cisco-sccp"), (2001, "dc"),
   (2010, "search"), (4444, "krb524"), (5631, "pcanywheredata"),
   (8009, "ajp13"), (8291, "mikrotik")]

/-- udpServices: UDP-specific service names. -/
def udpServices : List (Nat × String) :=
  [(7, "echo"), (9, "discard"), (13, "daytime"), (37, "time"),
   (111, "rpcbind"), (177, "xdmcp"), (427, "svrloc"), (443, "quic"),
   (500, "isakmp"), (514, "syslog"), (517, "talk"), (518, "ntalk"),
   (520, "rip"), (521, "ripng"), (623, "ipmi"), (1194, "openvpn"),
   (1645, "radius-old"), (1646, "radacct-old"), (1900, "ssdp"),
   (3478, "stun"), (3544, "teredo"), (4380, "teredo-alt"),
   (4500, "ipsec-nat"), (4789, "vxlan"), (5004, "rtp"), (5005, "rtcp"),
   (5353, "mdns"), (5355, "llmnr"), (6081, "geneve"), (8472, "vxlan-otv")]

/-- resolver.GetServiceName: protocol-specific map first (6=TCP, 17=UDP),
then the common map; port 0 and unknown ports give the empty string. -/
def GetServiceName (port protocol : Nat) : String :=
  if port = 0 then ""
  else
    let specific :=
      if protocol = 6 then List.lookup port tcpServices
      else if protocol = 17 then List.lookup port udpServices
      else none
    match specific with
    | some name => name
    | none =>
        match List.lookup port commonServices with
        | some name => name
        | none => ""

/-- resolver.IsKnownService: the name appears among the values of any of
the three maps. -/
def IsKnownService (name : String) : Bool :=
  commonServices.any (fun q => q.2 = name) ||
  tcpServices.any (fun q => q.2 = name) ||
  udpServices.any (fun q => q.2 = name)

/-! ## String helpers for the filter engine

Go string primitives (`strings.Contains`, `strings.EqualFold`,
`strings.Index`, byte-wise `<` comparison, `strconv.ParseUint`,
`strings.TrimSpace`) re-implemented over `List Char`.  Byte-wise UTF-8
comparison coincides with code-point comparison, and Go's Unicode case
folding coincides with `Char.toLower` on ASCII, the alphabet these
filters use. -/

def isPrefixList : List Char → List Char → Bool
  | [], _ => true
  | _ :: _, [] => false
  | a :: as, b :: bs => a = b && isPrefixList as bs

/-- strings.Contains. -/
def strContainsList (cs sub : List Char) : Bool :=
  match cs with
  | [] => isPrefixList sub []
  | _ :: rest => isPrefixList sub cs || strContainsList rest sub

def strContains (s sub : String) : Bool := strContainsList s.data sub.data

/-- strings.Index (first index of `sub` in `cs`, or none). -/
def indexOfSubAux (sub : List Char) : List Char → Nat → Option Nat
  | [], k => if isPrefixList sub [] then some k else none
  | c :: rest, k =>
      if isPrefixList sub (c :: rest) then some k
      else indexOfSubAux sub rest (k + 1)

def indexOfSub (cs sub : List Char) : Option Nat := indexOfSubAux sub cs 0

/-- strings.EqualFold (ASCII folding). -/
def eqFold (a b : String) : Bool :=
  a.data.map Char.toLower = b.data.map Char.toLower

/-- Byte-wise `<` on strings (Go `<`). -/
def charListLt : List Char → List Char → Bool
  | [], [] => false
  | [], _ :: _ => true
  | _ :: _, [] => false
  | a :: as, b :: bs =>
      if a.toNat < b.toNat then true
      else if b.toNat < a.toNat then false
      else charListLt as bs

def strLt (a b : String) : Bool := charListLt a.data b.data

/-- strconv.ParseUint(s, 10, 16): decimal digits only, value below
2^16. -/
def parseUint16 (cs : List Char) : Option Nat :=
  if cs.isEmpty then none
  else if cs.all (fun c => c.isDigit) then
    let n := cs.foldl (fun acc c => acc * 10 + (c.toNat - 48)) 0
    if n < 65536 then some n else none
  else none

/-- strings.TrimSpace (the ASCII whitespace Go recognizes). -/
def isGoSpace (c : Char) : Bool :=
  c = ' ' || c = '\t' || c = '\n' || c = '\x0b' || c = '\x0c' || c = '\r'

def goTrim (s : String) : String :=
  String.mk (((s.data.dropWhile isGoSpace).reverse.dropWhile isGoSpace).reverse)

/-- strings.Join with a separator. -/
def joinSep (sep : String) : List String → String
  | [] => ""
  | [x] => x
  | x :: rest => x ++ sep ++ joinSep sep rest

def splitOnChar (sep : Char) : List Char → List (List Char)
  | [] => [[]]
  | c :: rest =>
      let r := splitOnChar sep rest
      if c = sep then [] :: r
      else
        match r with
        | [] => [[c]]
        | g :: gs => (c :: g) :: gs

/-! ## CIDR parsing and matching

Models the subset of the Go standard library the filter engine uses:
`net.ParseCIDR` for dotted-decimal IPv4 networks (the address is masked
down to the network address, the prefix length is kept) and
`net.IPNet.Contains`.  IPv6 CIDR literals are outside the model; no
claim exercises them. -/

/-- One dotted-decimal octet: 1–3 digits, no leading zero (Go rejects
them since 1.17), value at most 255. -/
def parseOctet (cs : List Char) : Option Nat :=
  if cs.isEmpty then none
  else if ¬ cs.all (fun c => c.isDigit) then none
  else if 1 < cs.length ∧ cs.headD '0' = '0' then none
  else if 3 < cs.length then none
  else
    let n := cs.foldl (fun acc c => acc * 10 + (c.toNat - 48)) 0
    if n < 256 then some n else none

def parseIPv4 (cs : List Char) : Option (List Nat) :=
  match splitOnChar '.' cs with
  | [a, b, c, d] =>
      match parseOctet a, parseOctet b, parseOctet c, parseOctet d with
      | some x, some y, some z, some w => some [x, y, z, w]
      | _, _, _, _ => none
  | _ => none

/-- Mask an IPv4 address down to its network address. -/
def maskApply : Nat → List Nat → List Nat
  | _, [] => []
  | bits, x :: xs =>
      if 8 ≤ bits then x :: maskApply (bits - 8) xs
      else (x / 2 ^ (8 - bits)) * 2 ^ (8 - bits) :: maskApply 0 xs

/-- net.ParseCIDR for IPv4: returns (masked network address, prefix
length). -/
def parseCIDR (s : String) : Option (List Nat × Nat) :=
  match splitOnChar '/' s.data with
  | [ipPart, maskPart] =>
      match parseIPv4 ipPart with
      | none => none
      | some ip =>
          if maskPart.isEmpty then none
          else if ¬ maskPart.all (fun c => c.isDigit) then none
          else if 2 < maskPart.length then none
          else
            let bits := maskPart.foldl (fun acc c => acc * 10 + (c.toNat - 48)) 0
            if bits ≤ 32 then some (maskApply bits ip, bits) else none
  | _ => none

/-- net.IP.To4: a 4-byte address, or the low 4 bytes of a v4-mapped
16-byte address. -/
def ipTo4 : List Nat → Option (List Nat)
  | [a, b, c, d] => some [a, b, c, d]
  | [0, 0, 0, 0, 0, 0, 0, 0, 0, 0, 255, 255, a, b, c, d] => some [a, b, c, d]
  | _ => none

/-- Bit-prefix comparison of two byte strings. -/
def maskBitsEq : Nat → List Nat → List Nat → Bool
  | _, [], [] => true
  | bits, x :: xs, y :: ys =>
      if bits = 0 then true
      else if 8 ≤ bits then x = y && maskBitsEq (bits - 8) xs ys
      else x / 2 ^ (8 - bits) = y / 2 ^ (8 - bits)
  | _, _, _ => false

/-- net.IPNet.Contains for the IPv4 networks `parseCIDR` builds. -/
def ipnetContains (nw : List Nat × Nat) (ip : List Nat) : Bool :=
  match ipTo4 ip with
  | some ip4 => maskBitsEq nw.2 nw.1 ip4
  | none => false

/-! ## Filter engine (`internal/store/filter.go`)

`ExprNode` is the Go interface realized as an inductive with the three
node types and the leaf `ConditionNode`.  Go maps used as sets
(`ValidFields`, `knownProtocols`, `validProtos`) become membership in
string lists. -/

structure ConditionNode where
  Field : String
  Value : String
  Port : Nat := 0
  Interface : Nat := 0
  Network : Option (List Nat × Nat) := none
  Negated : Bool := false
  deriving Repr, DecidableEq, Inhabited

inductive ExprNode where
  | condition (c : ConditionNode)
  | andNode (children : List ExprNode)
  | orNode (children : List ExprNode)
  | notNode (child : ExprNode)
  deriving Repr, Inhabited

/-- ConditionNode.Evaluate: the field switch of `filter.go`. -/
def ConditionNode.Evaluate (c : ConditionNode) (flow : Flow) : Bool :=
  let srcIP := ipString flow.SrcAddr
  let dstIP := ipString flow.DstAddr
  let result :=
    if c.Field = "src" ∨ c.Field = "sip" ∨ c.Field = "srcip" then
      match c.Network with
      | some nw => ipnetContains nw flow.SrcAddr
      | none => strContains srcIP c.Value
    else if c.Field = "dst" ∨ c.Field = "dip" ∨ c.Field = "dstip" then
      match c.Network with
      | some nw => ipnetContains nw flow.DstAddr
      | none => strContains dstIP c.Value
    else if c.Field = "ip" then
      match c.Network with
      | some nw => ipnetContains nw flow.SrcAddr || ipnetContains nw flow.DstAddr
      | none => strContains srcIP c.Value || strContains dstIP c.Value
    else if c.Field = "sport" ∨ c.Field = "srcport" then
      flow.SrcPort == c.Port
    else if c.Field = "dport" ∨ c.Field = "dstport" then
      flow.DstPort == c.Port
    else if c.Field = "port" then
      flow.SrcPort == c.Port || flow.DstPort == c.Port
    else if c.Field = "proto" ∨ c.Field = "protocol" then
      eqFold flow.ProtocolName c.Value
    else if c.Field = "service" ∨ c.Field = "svc" then
      let srcSvc := GetServiceName flow.SrcPort flow.Protocol
      let dstSvc := GetServiceName flow.DstPort flow.Protocol
      if srcSvc = "" ∧ dstSvc = "" then eqFold flow.ProtocolName c.Value
      else eqFold srcSvc c.Value || eqFold dstSvc c.Value
    else if c.Field = "if" then
      flow.InputIf == c.Interface || flow.OutputIf == c.Interface
    else if c.Field = "inif" then
      flow.InputIf == c.Interface
    else if c.Field = "outif" then
      flow.OutputIf == c.Interface
    else if c.Field = "self" ∨ c.Field = "local" then
      srcIP == dstIP
    else if c.Field = "version" ∨ c.Field = "ipversion" then
      let isV4 := (ipTo4 flow.SrcAddr).isSome
      if c.Value = "4" ∨ c.Value = "v4" ∨ c.Value = "ipv4" then isV4
      else if c.Value = "6" ∨ c.Value = "v6" ∨ c.Value = "ipv6" then !isV4
      else true
    else true
  if c.Negated then !result else result

mutual

/-- ExprNode.Evaluate (AndNode/OrNode short-circuit like the Go loops). -/
def ExprNode.Evaluate : ExprNode → Flow → Bool
  | .condition c, fl => c.Evaluate fl
  | .andNode cs, fl => evalAll cs fl
  | .orNode cs, fl => evalAny cs fl
  | .notNode ch, fl => !(ExprNode.Evaluate ch fl)

def evalAll : List ExprNode → Flow → Bool
  | [], _ => true
  | e :: rest, fl => if ExprNode.Evaluate e fl then evalAll rest fl else false

def evalAny : List ExprNode → Flow → Bool
  | [], _ => false
  | e :: rest, fl => if ExprNode.Evaluate e fl then true else evalAny rest fl

end

structure Filter where
  Root : Option ExprNode := none
  Raw : String := ""
  Error : String := ""
  deriving Repr, Inhabited

def Filter.IsEmpty (f : Filter) : Bool := f.Root.isNone

def Filter.IsValid (f : Filter) : Bool := f.Error = ""

def Filter.Matches (f : Filter) (flow : Flow) : Bool :=
  match f.Root with
  | none => true
  | some r => r.Evaluate flow

def ValidFields : List String :=
  ["src", "sip", "srcip", "dst", "dip", "dstip", "ip",
   "sport", "srcport", "dport", "dstport", "port",
   "proto", "protocol", "service", "svc",
   "if", "inif", "outif", "self", "local", "version", "ipversion"]

def knownProtocols : List String :=
  ["tcp", "udp", "icmp", "gre", "esp", "ah", "icmpv6", "sctp"]

inductive tokenType where
  | tokenCondition
  | tokenAnd
  | tokenOr
  | tokenNot
  | tokenLParen
  | tokenRParen
  | tokenEOF
  deriving Repr, DecidableEq, Inhabited

structure token where
  typ : tokenType
  value : String
  deriving Repr, DecidableEq, Inhabited

/-- A 3-letter keyword match (case-insensitive) followed by a word
boundary (end of input, space, tab, or an opening parenthesis). -/
def kwBoundary : List Char → Bool
  | [] => true
  | c :: _ => c = ' ' || c = '\t' || c = '('

def isKw3 (c : Char) (rest : List Char) (k1 k2 k3 : Char) : Bool :=
  c.toLower = k1 &&
    match rest with
    | c2 :: c3 :: rest2 => c2.toLower = k2 && c3.toLower = k3 && kwBoundary rest2
    | _ => false

def isKw2 (c : Char) (rest : List Char) (k1 k2 : Char) : Bool :=
  c.toLower = k1 &&
    match rest with
    | c2 :: rest2 => c2.toLower = k2 && kwBoundary rest2
    | _ => false

/-- The condition-token scan: everything up to whitespace, a
parenthesis, a comma, or a `&&`/`||` pair. -/
def condTake : List Char → List Char
  | [] => []
  | c :: rest =>
      if c = ' ' ∨ c = '\t' ∨ c = '(' ∨ c = ')' ∨ c = ',' then []
      else if c = '&' ∧ rest.head? = some '&' then []
      else if c = '|' ∧ rest.head? = some '|' then []
      else c :: condTake rest

/-- One pass of `tokenize`; structural on fuel, each step consumes at
least one character, so `length + 1` fuel always suffices. -/
def tokenizeLoop : Nat → List Char → List token
  | 0, _ => []
  | Nat.succ fuel, cs =>
      match cs with
      | [] => []
      | c :: rest =>
          if c = ' ' ∨ c = '\t' then tokenizeLoop fuel rest
          else if c = '&' ∧ rest.head? = some '&' then
            ⟨.tokenAnd, "&&"⟩ :: tokenizeLoop fuel (rest.drop 1)
          else if c = '|' ∧ rest.head? = some '|' then
            ⟨.tokenOr, "||"⟩ :: tokenizeLoop fuel (rest.drop 1)
          else if c = '!' then ⟨.tokenNot, "!"⟩ :: tokenizeLoop fuel rest
          else if c = '(' then ⟨.tokenLParen, "("⟩ :: tokenizeLoop fuel rest
          else if c = ')' then ⟨.tokenRParen, ")"⟩ :: tokenizeLoop fuel rest
          else if isKw3 c rest 'n' 'o' 't' then
            ⟨.tokenNot, "not"⟩ :: tokenizeLoop fuel (rest.drop 2)
          else if isKw3 c rest 'a' 'n' 'd' then
            ⟨.tokenAnd, "and"⟩ :: tokenizeLoop fuel (rest.drop 2)
          else if isKw2 c rest 'o' 'r' then
            ⟨.tokenOr, "or"⟩ :: tokenizeLoop fuel (rest.drop 1)
          else if c = ',' then ⟨.tokenAnd, ","⟩ :: tokenizeLoop fuel rest
          else
            let tk := c :: condTake rest
            ⟨.tokenCondition, String.mk tk⟩ ::
              tokenizeLoop fuel (rest.drop (condTake rest).length)

/-- tokenize: trims, scans, appends the EOF sentinel. -/
def tokenize (s : String) : List token :=
  let cs := (goTrim s).data
  tokenizeLoop (cs.length + 1) cs ++ [⟨.tokenEOF, ""⟩]

/-- parser state: token stream, cursor, accumulated error messages. -/
structure PState where
  tokens : List token
  pos : Nat := 0
  errors : List String := []
  deriving Repr, Inhabited

def PState.current (st : PState) : token :=
  st.tokens.getD st.pos ⟨.tokenEOF, ""⟩

def PState.advance (st : PState) : PState :=
  if st.pos < st.tokens.length then { st with pos := st.pos + 1 } else st

def PState.addErr (st : PState) (msg : String) : PState :=
  { st with errors := st.errors ++ [msg] }

/-- parseCondition: splits `field(!=|=|:)value`, handles the implicit
self/protocol/service forms, validates field, value, CIDR, ports,
interfaces and protocol names, mirroring the Go checks in order. -/
def parseCondition (st : PState) (s : String) : Option ExprNode × PState :=
  let cs := s.data
  let kv : Option (String × String × Bool) :=
    match indexOfSub cs "!=".data with
    | some idx =>
        if 0 < idx then
          some (String.mk ((cs.take idx).map Char.toLower),
                String.mk (cs.drop (idx + 2)), true)
        else none
    | none => none
  let kv2 : Option (String × String × Bool) ⊕ PState :=
    match kv with
    | some r => Sum.inl (some r)
    | none =>
        let idx :=
          match indexOfSub cs "=".data with
          | some i => some i
          | none => indexOfSub cs ":".data
        match idx with
        | some i =>
            if 0 < i then
              Sum.inl (some (String.mk ((cs.take i).map Char.toLower),
                             String.mk (cs.drop (i + 1)), false))
            else
              let lowerS := String.mk (cs.map Char.toLower)
              if lowerS = "self" ∨ lowerS = "local" then
                Sum.inl (some ("self", "true", false))
              else if knownProtocols.contains lowerS then
                Sum.inl (some ("proto", lowerS, false))
              else if IsKnownService lowerS then
                Sum.inl (some ("service", lowerS, false))
              else Sum.inr (st.addErr (s ++ " (invalid syntax)"))
        | none =>
            let lowerS := String.mk (cs.map Char.toLower)
            if lowerS = "self" ∨ lowerS = "local" then
              Sum.inl (some ("self", "true", false))
            else if knownProtocols.contains lowerS then
              Sum.inl (some ("proto", lowerS, false))
            else if IsKnownService lowerS then
              Sum.inl (some ("service", lowerS, false))
            else Sum.inr (st.addErr (s ++ " (invalid syntax)"))
  match kv2 with
  | Sum.inr st2 => (none, st2)
  | Sum.inl none => (none, st)
  | Sum.inl (some (key, value, negated)) =>
      if ¬ ValidFields.contains key then
        (none, st.addErr (s ++ " (unknown field)"))
      else if value = "" then
        (none, st.addErr (s ++ " (empty value)"))
      else
        let cond : ConditionNode := { Field := key, Value := value, Negated := negated }
        let cidrStep : Option ConditionNode × PState :=
          if key = "src" ∨ key = "sip" ∨ key = "srcip" ∨ key = "dst" ∨
             key = "dip" ∨ key = "dstip" ∨ key = "ip" then
            if strContains value "/" then
              match parseCIDR value with
              | none => (none, st.addErr (s ++ " (invalid CIDR)"))
              | some nw => (some { cond with Network := some nw }, st)
            else (some cond, st)
          else (some cond, st)
        match cidrStep with
        | (none, st2) => (none, st2)
        | (some cond1, st1) =>
            let portStep : Option ConditionNode × PState :=
              if key = "sport" ∨ key = "srcport" ∨ key = "dport" ∨
                 key = "dstport" ∨ key = "port" then
                match parseUint16 value.data with
                | none => (none, st1.addErr (s ++ " (invalid port)"))
                | some p => (some { cond1 with Port := p }, st1)
              else (some cond1, st1)
            match portStep with
            | (none, st2) => (none, st2)
            | (some cond2, st2) =>
                let ifStep : Option ConditionNode × PState :=
                  if key = "if" ∨ key = "inif" ∨ key = "outif" then
                    match parseUint16 value.data with
                    | none => (none, st2.addErr (s ++ " (invalid interface)"))
                    | some p => (some { cond2 with Interface := p }, st2)
                  else (some cond2, st2)
                match ifStep with
                | (none, st3) => (none, st3)
                | (some cond3, st3) =>
                    if key = "proto" ∨ key = "protocol" then
                      if ¬ knownProtocols.contains
                          (String.mk (value.data.map Char.toLower)) then
                        (none, st3.addErr (s ++ " (unknown protocol)"))
                      else (some (.condition cond3), st3)
                    else (some (.condition cond3), st3)

/-- OrNode/AndNode assembly: a single child is returned bare. -/
def assembleNode (mk : List ExprNode → ExprNode) : List ExprNode → ExprNode
  | [c] => c
  | cs => mk cs

mutual

/-- parseExpr (OR precedence level); fuel-driven, where Go recursion is
bounded by the token count. -/
def parseExpr : Nat → PState → Option ExprNode × PState
  | 0, st => (none, st)
  | Nat.succ fuel, st =>
      match parseAndExpr fuel st with
      | (none, st1) => (none, st1)
      | (some l, st1) => parseOrLoop fuel st1 [l]

def parseOrLoop : Nat → PState → List ExprNode → Option ExprNode × PState
  | 0, st, children => (some (assembleNode .orNode children), st)
  | Nat.succ fuel, st, children =>
      if st.current.typ = .tokenOr then
        match parseAndExpr fuel st.advance with
        | (none, st2) =>
            (some (assembleNode .orNode children),
             st2.addErr "expected expression after ||")
        | (some r, st2) => parseOrLoop fuel st2 (children ++ [r])
      else (some (assembleNode .orNode children), st)

def parseAndExpr : Nat → PState → Option ExprNode × PState
  | 0, st => (none, st)
  | Nat.succ fuel, st =>
      match parseUnaryExpr fuel st with
      | (none, st1) => (none, st1)
      | (some l, st1) => parseAndLoop fuel st1 [l]

def parseAndLoop : Nat → PState → List ExprNode → Option ExprNode × PState
  | 0, st, children => (some (assembleNode .andNode children), st)
  | Nat.succ fuel, st, children =>
      if st.current.typ = .tokenAnd then
        match parseUnaryExpr fuel st.advance with
        | (none, st2) =>
            (some (assembleNode .andNode children),
             st2.addErr "expected expression after &&")
        | (some r, st2) => parseAndLoop fuel st2 (children ++ [r])
      else if st.current.typ = .tokenCondition ∨ st.current.typ = .tokenLParen ∨
              st.current.typ = .tokenNot then
        match parseUnaryExpr fuel st with
        | (none, st2) => (some (assembleNode .andNode children), st2)
        | (some r, st2) => parseAndLoop fuel st2 (children ++ [r])
      else (some (assembleNode .andNode children), st)

def parseUnaryExpr : Nat → PState → Option ExprNode × PState
  | 0, st => (none, st)
  | Nat.succ fuel, st =>
      if st.current.typ = .tokenNot then
        match parseUnaryExpr fuel st.advance with
        | (none, st2) => (none, st2.addErr "expected expression after !")
        | (some c, st2) => (some (.notNode c), st2)
      else parsePrimaryExpr fuel st

def parsePrimaryExpr : Nat → PState → Option ExprNode × PState
  | 0, st => (none, st)
  | Nat.succ fuel, st =>
      let cur := st.current
      if cur.typ = .tokenLParen then
        match parseExpr fuel st.advance with
        | (none, st2) => (none, st2.addErr "expected expression after (")
        | (some ex, st2) =>
            if st2.current.typ ≠ .tokenRParen then
              (some ex, st2.addErr "missing closing )")
            else (some ex, st2.advance)
      else if cur.typ = .tokenCondition then
        parseCondition st.advance cur.value
      else (none, st)

end

/-- Core of ParseFilter on a trimmed non-empty input: the root the
expression parser produced and the final error list (including the
trailing-token check). -/
def parseFilterCore (t : String) : Option ExprNode × List String :=
  let toks := tokenize t
  let st0 : PState := { tokens := toks }
  let (root, st1) := parseExpr (4 * (toks.length + 1)) st0
  let errs :=
    if st1.current.typ ≠ .tokenEOF then
      st1.errors ++ ["unexpected: " ++ st1.current.value]
    else st1.errors
  (root, errs)

/-- ParseFilter: empty (trimmed) input gives the empty filter; any
parse error discards the partial root and records a combined message. -/
def ParseFilter (s : String) : Filter :=
  let t := goTrim s
  if t = "" then { Raw := t }
  else
    let (root, errs) := parseFilterCore t
    if errs ≠ [] then
      { Root := none, Raw := t, Error := "invalid: " ++ joinSep ", " errs }
    else { Root := root, Raw := t, Error := "" }

/-! ## FlowStore.Query (`internal/store/store.go`)

Go's `sort.Slice` is an unspecified unstable sort; the model fixes it to
insertion sort with the same comparator.  All properties proved below
hold for any sort producing a permutation ordered by the comparator. -/

inductive SortField where
  | SortByTime
  | SortByBytes
  | SortByPackets
  | SortBySrcIP
  | SortByDstIP
  | SortByProtocol
  deriving Repr, DecidableEq, Inhabited

/-- compareIPs: nil handling, then byte-wise string comparison of the
textual forms. -/
def compareIPs (a b : List Nat) : Int :=
  if a.isEmpty ∧ b.isEmpty then 0
  else if a.isEmpty then -1
  else if b.isEmpty then 1
  else if strLt (ipString a) (ipString b) then -1
  else if strLt (ipString b) (ipString a) then 1
  else 0

/-- The `less` closure of Query's sort.Slice call. -/
def flowLess (sortBy : SortField) (a b : Flow) : Bool :=
  match sortBy with
  | .SortByTime => a.ReceivedAt < b.ReceivedAt
  | .SortByBytes => a.Bytes < b.Bytes
  | .SortByPackets => a.Packets < b.Packets
  | .SortBySrcIP => compareIPs a.SrcAddr b.SrcAddr < 0
  | .SortByDstIP => compareIPs a.DstAddr b.DstAddr < 0
  | .SortByProtocol => a.Protocol < b.Protocol

/-- FlowStore.Query: filter, sort (descending negates the comparator),
then clamp to `limit` when `0 < limit < length`.  A `limit` of 0 means
no limit. -/
def FlowStore.Query (fs : FlowStore) (filter : Option Filter)
    (sortBy : SortField) (ascending : Bool) (limit : Nat) : List Flow :=
  let filtered :=
    match filter with
    | none => fs.flows
    | some f => if f.IsEmpty then fs.flows else fs.flows.filter (fun fl => f.Matches fl)
  let sorted := List.insertionSort
    (fun a b => (if ascending then flowLess sortBy a b else !(flowLess sortBy a b)) = true)
    filtered
  if 0 < limit ∧ limit < sorted.length then sorted.take limit else sorted

/-! ## ip-to-ip Sankey aggregation (`internal/api/handlers.go`)

Go iterates `linkMap`, `protoCount[key]` and `nodeSet` in an
unspecified map order; the model fixes all three to insertion order.
The topN-monotonicity property holds for any fixed iteration order,
since both calls being compared traverse the same maps.  DNS resolution
of node labels (`resolveIP` with its cache) is an external effect,
abstracted as an oracle `resolveLabel` covering the
`net.ParseIP`/`resolveIP` branch. -/

structure SankeyNode where
  ID : String
  Typ : String
  Label : String
  SortKey : Nat := 0
  deriving Repr, DecidableEq, Inhabited

structure SankeyLink where
  Source : String
  Target : String
  Value : Nat
  Packets : Nat
  Protocol : String := ""
  Flows : Nat := 0
  Inferred : Bool := false
  deriving Repr, DecidableEq, Inhabited

structure SankeyData where
  Mode : String := ""
  Nodes : List SankeyNode
  Links : List SankeyLink
  Generated : Int := 0
  Filter : String := ""
  deriving Repr, Inhabited

/-- `protoCount[key][proto] += bytes` on an insertion-ordered map. -/
def protoBump (m : List (String × Nat)) (proto : String) (bytes : Nat) :
    List (String × Nat) :=
  match m with
  | [] => [(proto, bytes)]
  | (p, b) :: rest =>
      if p = proto then (p, b + bytes) :: rest
      else (p, b) :: protoBump rest proto bytes

/-- One linkMap/protoCount update for a flow, keyed by the normalized
pair; existing entries are updated in place, new ones appended. -/
def linkUpdate (acc : List (String × SankeyLink × List (String × Nat)))
    (key nodeA nodeB : String) (f : Flow) :
    List (String × SankeyLink × List (String × Nat)) :=
  match acc with
  | [] => [(key, { Source := nodeA, Target := nodeB, Value := f.Bytes,
                   Packets := f.Packets, Flows := 1 },
            [(f.ProtocolName, f.Bytes)])]
  | (k, link, protos) :: rest =>
      if k = key then
        (k, { link with Value := link.Value + f.Bytes,
                        Packets := link.Packets + f.Packets,
                        Flows := link.Flows + 1 },
         protoBump protos f.ProtocolName f.Bytes) :: rest
      else (k, link, protos) :: linkUpdate rest key nodeA nodeB f

/-- The aggregation loop over the queried flows: cutoff skip, pair
normalization (smaller textual IP first), accumulate. -/
def ipToIPFold (cutoff : Int) :
    List Flow → List (String × SankeyLink × List (String × Nat)) →
    List (String × SankeyLink × List (String × Nat))
  | [], acc => acc
  | f :: rest, acc =>
      if cutoff ≠ 0 ∧ f.ReceivedAt < cutoff then ipToIPFold cutoff rest acc
      else
        let srcIP := ipString f.SrcAddr
        let dstIP := ipString f.DstAddr
        let acc2 :=
          if strLt srcIP dstIP then
            linkUpdate acc (srcIP ++ "-" ++ dstIP) srcIP dstIP f
          else
            linkUpdate acc (dstIP ++ "-" ++ srcIP) dstIP srcIP f
        ipToIPFold cutoff rest acc2

/-- The dominant-protocol scan: strictly larger byte count wins,
starting from the empty name with 0 bytes. -/
def dominantProto (protos : List (String × Nat)) : String :=
  (protos.foldl
    (fun best q => if best.2 < q.2 then q else best) ("", 0)).1

/-- Node construction from the final link list: first occurrence wins,
sources before targets per link. -/
def buildNodes (links : List SankeyLink) (resolveLabel : String → String) :
    List SankeyNode :=
  let nodeSet := links.foldl
    (fun acc l =>
      let acc1 := if acc.any (fun q => q.1 = l.Source) then acc
                  else acc ++ [(l.Source, "source")]
      if acc1.any (fun q => q.1 = l.Target) then acc1
      else acc1 ++ [(l.Target, "target")])
    ([] : List (String × String))
  nodeSet.map (fun q => { ID := q.1, Typ := q.2, Label := resolveLabel q.1 })

/-- Handlers.aggregateIPtoIP: query sorted by bytes descending with no
limit, aggregate pairs, attach dominant protocols, sort links by value
descending, cut to `topN`, and build the node set from the kept
links. -/
def aggregateIPtoIP (resolveLabel : String → String) (fs : FlowStore)
    (filter : Option Filter) (topN : Nat) (cutoff : Int) : SankeyData :=
  let flows := fs.Query filter .SortByBytes false 0
  let linkAssoc := ipToIPFold cutoff flows []
  let links := linkAssoc.map
    (fun kv => { kv.2.1 with Protocol := dominantProto kv.2.2 })
  let sorted := List.insertionSort (fun a b => b.Value ≤ a.Value) links
  let topped := if topN < sorted.length then sorted.take topN else sorted
  { Nodes := buildNodes topped resolveLabel, Links := topped }

/-- A two-flow store used to exercise the Sankey aggregation on
concrete data. -/
def sankeySampleStore : FlowStore :=
  { flows :=
      [{ SrcAddr := [10, 0, 0, 1], DstAddr := [10, 0, 0, 2], Protocol := 6,
         Bytes := 500, Packets := 5 },
       { SrcAddr := [10, 0, 0, 3], DstAddr := [10, 0, 0, 4], Protocol := 17,
         Bytes := 300, Packets := 3 }] }

/-! ## Theorems -/

theorem byteAt_slice (d : List Nat) (off len k : Nat) (h : k < len) :
    byteAt (slice d off len) k = byteAt d (off + k) := by
  unfold byteAt slice
  rw [List.getD_eq_getElem?_getD, List.getElem?_take, if_pos h, List.getElem?_drop,
    ← List.getD_eq_getElem?_getD]

theorem be16at_slice (d : List Nat) (off len k : Nat) (h : k + 1 < len) :
    be16at (slice d off len) k = be16at d (off + k) := by
  unfold be16at
  rw [byteAt_slice d off len k (by omega), byteAt_slice d off len (k + 1) h,
    Nat.add_assoc]

theorem be32at_slice (d : List Nat) (off len k : Nat) (h : k + 3 < len) :
    be32at (slice d off len) k = be32at d (off + k) := by
  unfold be32at
  rw [byteAt_slice d off len k (by omega), byteAt_slice d off len (k + 1) (by omega),
    byteAt_slice d off len (k + 2) (by omega), byteAt_slice d off len (k + 3) h]
  simp [Nat.add_assoc]

theorem slice_slice (d : List Nat) (off1 len1 off2 len2 : Nat)
    (h : off2 + len2 ≤ len1) :
    slice (slice d off1 len1) off2 len2 = slice d (off1 + off2) len2 := by
  unfold slice
  rw [List.drop_take, List.drop_drop, List.take_take]
  have h1 : len2 ⊓ (len1 - off2) = len2 := by omega
  rw [h1]

theorem markLoop_length (now : Int) (keySet : List String) (cap : Nat) :
    ∀ (flows : List Flow) (m : Nat),
      (markLoop now keySet cap flows m).length = flows.length := by
  intro flows
  induction flows with
  | nil => intro m; rfl
  | cons f rest ih =>
    intro m
    simp only [markLoop]
    by_cases hc : keySet.contains f.FlowKey = true
    · rw [if_pos hc]
      by_cases hcap : cap ≤ m + 1
      · rw [if_pos hcap]
        simp
      · rw [if_neg hcap]
        simp [ih]
    · rw [if_neg hc]
      simp [ih]

theorem matchIdx_shift (keySet : List String) :
    ∀ (flows : List Flow) (s : Nat),
      matchIdx keySet flows s = (matchIdx keySet flows 0).map (fun j => s + j) := by
  intro flows
  induction flows with
  | nil => intro s; rfl
  | cons f rest ih =>
    intro s
    simp only [matchIdx]
    by_cases hc : keySet.contains f.FlowKey = true
    · rw [if_pos hc, if_pos hc, ih (s + 1), ih 1, List.map_cons, List.map_map]
      congr 1
      · apply List.map_congr_left
        intro j _
        simp only [Function.comp_apply]
        omega
    · rw [if_neg hc, if_neg hc, ih (s + 1), ih 1, List.map_map]
      apply List.map_congr_left
      intro j _
      simp only [Function.comp_apply]
      omega

theorem markLoop_getD (now : Int) (keySet : List String) (cap : Nat) :
    ∀ (flows : List Flow) (m : Nat), m < cap → ∀ i,
      (markLoop now keySet cap flows m).getD i default =
        (if i ∈ (matchIdx keySet flows 0).take (cap - m)
         then { flows.getD i default with LastAccessed := now }
         else flows.getD i default) := by
  intro flows
  induction flows with
  | nil =>
    intro m _ i
    simp [markLoop, matchIdx]
  | cons f rest ih =>
    intro m hm i
    simp only [markLoop, matchIdx]
    by_cases hc : keySet.contains f.FlowKey = true
    · rw [if_pos hc, if_pos hc]
      rw [matchIdx_shift keySet rest 1]
      by_cases hcap : cap ≤ m + 1
      · rw [if_pos hcap]
        have hcm : cap - m = 1 := by omega
        rw [hcm]
        match i with
        | 0 => simp
        | Nat.succ j =>
          simp only [List.take_succ_cons, List.take_zero, List.getD_cons_succ]
          rw [if_neg (by simp)]
      · rw [if_neg hcap]
        have hsplit : cap - m = (cap - m - 1) + 1 := by omega
        rw [hsplit]
        match i with
        | 0 => simp
        | Nat.succ j =>
          simp only [List.getD_cons_succ]
          rw [ih (m + 1) (by omega) j]
          rw [List.take_succ_cons, ← List.map_take]
          have hmm : cap - (m + 1) = cap - m - 1 := by omega
          rw [hmm]
          by_cases hj : j ∈ (matchIdx keySet rest 0).take (cap - m - 1)
          · rw [if_pos hj, if_pos]
            simp only [List.mem_cons, List.mem_map]
            exact Or.inr ⟨j, hj, by omega⟩
          · rw [if_neg hj, if_neg]
            simp only [List.mem_cons, List.mem_map]
            rintro (h0 | ⟨x, hx, hxe⟩)
            · omega
            · have hxj : x = j := by omega
              exact hj (hxj ▸ hx)
    · rw [if_neg hc, if_neg hc]
      rw [matchIdx_shift keySet rest 1, ← List.map_take]
      match i with
      | 0 =>
        simp only [List.getD_cons_zero]
        rw [if_neg]
        simp only [List.mem_map]
        rintro ⟨x, _, hxe⟩
        omega
      | Nat.succ j =>
        simp only [List.getD_cons_succ]
        rw [ih m hm j]
        by_cases hj : j ∈ (matchIdx keySet rest 0).take (cap - m)
        · rw [if_pos hj, if_pos]
          exact List.mem_map.mpr ⟨j, hj, by omega⟩
        · rw [if_neg hj, if_neg]
          simp only [List.mem_map]
          rintro ⟨x, hx, hxe⟩
          have hxj : x = j := by omega
          exact hj (hxj ▸ hx)

/-- C3 (amended): `MarkFlowsAccessed` sets `LastAccessed := now` on
stored records whose `FlowKey` is in the key list, scanning in storage
order, but stops after marking as many records as there are keys: the
records marked are exactly the first `min(#keys, #matches)` matching
ones (duplicate records with the same key beyond that cap keep their
old `LastAccessed`), and no other field of any record changes. -/
theorem markFlowsAccessed_spec (fs : FlowStore) (now : Int) (keys : List String) :
    ((fs.MarkFlowsAccessed now keys).flows.length = fs.flows.length) ∧
    (∀ i,
      (i ∈ (matchIdx keys fs.flows 0).take keys.length →
        (fs.MarkFlowsAccessed now keys).flows.getD i default =
          { fs.flows.getD i default with LastAccessed := now }) ∧
      (i ∉ (matchIdx keys fs.flows 0).take keys.length →
        (fs.MarkFlowsAccessed now keys).flows.getD i default =
          fs.flows.getD i default)) := by
  unfold FlowStore.MarkFlowsAccessed
  by_cases hk : keys.isEmpty = true
  · have hk0 : keys.length = 0 := by
      cases keys with
      | nil => rfl
      | cons a as => simp [List.isEmpty] at hk
    rw [if_pos hk]
    refine ⟨rfl, fun i => ⟨fun hmem => ?_, fun _ => rfl⟩⟩
    rw [hk0, List.take_zero] at hmem
    exact absurd hmem (List.not_mem_nil i)
  · have hk1 : 0 < keys.length := by
      cases keys with
      | nil => simp [List.isEmpty] at hk
      | cons a as => simp
    rw [if_neg hk]
    dsimp only
    refine ⟨markLoop_length now keys keys.length fs.flows 0, fun i => ?_⟩
    have h := markLoop_getD now keys keys.length fs.flows 0 hk1 i
    rw [Nat.sub_zero] at h
    constructor
    · intro hmem
      rw [h, if_pos hmem]
    · intro hmem
      rw [h, if_neg hmem]

/-- Witness for the `MarkFlowsAccessed` theorem: a two-record store in
which the single key marks the first record and leaves the second
(duplicate-key) record untouched. -/
theorem markFlowsAccessed_spec_witness :
    (({ flows := [{ SrcAddr := [10, 0, 0, 1], SrcPort := 1,
                    DstAddr := [10, 0, 0, 2], DstPort := 2,
                    Protocol := 6, Bytes := 1 },
                  { SrcAddr := [10, 0, 0, 1], SrcPort := 1,
                    DstAddr := [10, 0, 0, 2], DstPort := 2,
                    Protocol := 6, Bytes := 2 }] } : FlowStore).MarkFlowsAccessed 5
        ["10.0.0.1:1-10.0.0.2:2-6"]).flows.getD 0 default =
      { ({ flows := [{ SrcAddr := [10, 0, 0, 1], SrcPort := 1,
                       DstAddr := [10, 0, 0, 2], DstPort := 2,
                       Protocol := 6, Bytes := 1 },
                     { SrcAddr := [10, 0, 0, 1], SrcPort := 1,
                       DstAddr := [10, 0, 0, 2], DstPort := 2,
                       Protocol := 6, Bytes := 2 }] } : FlowStore).flows.getD 0 default
        with LastAccessed := 5 } :=
  ((markFlowsAccessed_spec
      { flows := [{ SrcAddr := [10, 0, 0, 1], SrcPort := 1,
                    DstAddr := [10, 0, 0, 2], DstPort := 2,
                    Protocol := 6, Bytes := 1 },
                  { SrcAddr := [10, 0, 0, 1], SrcPort := 1,
                    DstAddr := [10, 0, 0, 2], DstPort := 2,
                    Protocol := 6, Bytes := 2 }] } 5
      ["10.0.0.1:1-10.0.0.2:2-6"]).2 0).1 (by decide)

/-- C3 (counterexample to the claim as stated): with one key and two
stored records sharing that `FlowKey`, `MarkFlowsAccessed` marks only
the first record — the loop breaks once `marked` reaches the number of
keys — so a duplicate record whose key IS in the list keeps
`LastAccessed = 0` instead of `now = 5`. -/
theorem markFlowsAccessed_counterexample :
    (({ flows := [{ SrcAddr := [10, 0, 0, 1], SrcPort := 1,
                    DstAddr := [10, 0, 0, 2], DstPort := 2,
                    Protocol := 6, Bytes := 1 },
                  { SrcAddr := [10, 0, 0, 1], SrcPort := 1,
                    DstAddr := [10, 0, 0, 2], DstPort := 2,
                    Protocol := 6, Bytes := 2 }] } : FlowStore).MarkFlowsAccessed 5
        ["10.0.0.1:1-10.0.0.2:2-6"]).flows.map (fun f => f.LastAccessed) = [5, 0] ∧
    ({ SrcAddr := [10, 0, 0, 1], SrcPort := 1, DstAddr := [10, 0, 0, 2],
       DstPort := 2, Protocol := 6, Bytes := 2 } : Flow).FlowKey =
      "10.0.0.1:1-10.0.0.2:2-6" := by
  decide

/-! ### Eviction-pass lemmas -/

theorem classifyFlows_length (now : Int) (cfg : EvictionConfig) (thr K : Nat) :
    ∀ (flows : List Flow) (k : Nat),
      (classifyFlows now cfg thr K flows k).length = flows.length := by
  intro flows
  induction flows with
  | nil => intro k; rfl
  | cons f rest ih =>
    intro k
    simp only [classifyFlows]
    split
    · simp [ih]
    · split <;> simp [ih]

theorem classifyFlows_topk_le (now : Int) (cfg : EvictionConfig) (thr K : Nat) :
    ∀ (flows : List Flow) (k : Nat),
      (classifyFlows now cfg thr K flows k).countP
        (fun c => c = some ProtReason.topk) ≤ K - k := by
  intro flows
  induction flows with
  | nil => intro k; simp [classifyFlows]
  | cons f rest ih =>
    intro k
    simp only [classifyFlows]
    by_cases h1 : 0 < thr ∧ thr ≤ f.Bytes ∧ k < K
    · rw [if_pos h1]
      rw [List.countP_cons_of_pos _ _ (by simp)]
      have := ih (k + 1)
      omega
    · rw [if_neg h1]
      split
      · rw [List.countP_cons_of_neg _ _ (by simp)]
        exact ih k
      · rw [List.countP_cons_of_neg _ _ (by simp)]
        exact ih k

theorem optReason_partition :
    ∀ (cls : List (Option ProtReason)),
      cls.countP (fun c => c = none) +
        cls.countP (fun c => c = some ProtReason.topk) +
        cls.countP (fun c => c = some ProtReason.lru) = cls.length := by
  intro cls
  induction cls with
  | nil => simp
  | cons c rest ih =>
    match c with
    | none =>
      rw [List.countP_cons_of_pos _ _ (by simp),
        List.countP_cons_of_neg _ _ (by simp),
        List.countP_cons_of_neg _ _ (by simp)]
      simp only [List.length_cons]
      omega
    | some ProtReason.topk =>
      rw [List.countP_cons_of_neg _ _ (by simp),
        List.countP_cons_of_pos _ _ (by simp),
        List.countP_cons_of_neg _ _ (by simp)]
      simp only [List.length_cons]
      omega
    | some ProtReason.lru =>
      rw [List.countP_cons_of_neg _ _ (by simp),
        List.countP_cons_of_neg _ _ (by simp),
        List.countP_cons_of_pos _ _ (by simp)]
      simp only [List.length_cons]
      omega

theorem idxWhere_mem (p : Option ProtReason → Bool) :
    ∀ (cls : List (Option ProtReason)) (s j : Nat),
      j ∈ idxWhere p cls s ↔
        s ≤ j ∧ j - s < cls.length ∧ p (cls.getD (j - s) none) = true := by
  intro cls
  induction cls with
  | nil =>
    intro s j
    simp [idxWhere]
  | cons c rest ih =>
    intro s j
    simp only [idxWhere]
    by_cases hp : p c = true
    · rw [if_pos hp]
      rw [List.mem_cons, ih (s + 1) j]
      simp only [List.length_cons]
      constructor
      · rintro (hj | ⟨h1, h2, h3⟩)
        · subst hj
          exact ⟨by omega, by omega, by simpa using hp⟩
        · refine ⟨by omega, by omega, ?_⟩
          have hd : j - s = (j - (s + 1)) + 1 := by omega
          rw [hd, List.getD_cons_succ]
          exact h3
      · rintro ⟨h1, h2, h3⟩
        by_cases hjs : j = s
        · exact Or.inl hjs
        · refine Or.inr ⟨by omega, by omega, ?_⟩
          have hd : j - s = (j - (s + 1)) + 1 := by omega
          rw [hd, List.getD_cons_succ] at h3
          exact h3
    · rw [if_neg hp]
      rw [ih (s + 1) j]
      constructor
      · rintro ⟨h1, h2, h3⟩
        refine ⟨by omega, by simp; omega, ?_⟩
        have hd : j - s = (j - (s + 1)) + 1 := by omega
        rw [hd, List.getD_cons_succ]
        exact h3
      · rintro ⟨h1, h2, h3⟩
        have hjs : j ≠ s := by
          intro hj
          subst hj
          rw [Nat.sub_self, List.getD_cons_zero] at h3
          exact hp h3
        refine ⟨by omega, by simp at h2; omega, ?_⟩
        have hd : j - s = (j - (s + 1)) + 1 := by omega
        rw [hd, List.getD_cons_succ] at h3
        exact h3

theorem idxWhere_length (p : Option ProtReason → Bool) :
    ∀ (cls : List (Option ProtReason)) (s : Nat),
      (idxWhere p cls s).length = cls.countP p := by
  intro cls
  induction cls with
  | nil => intro s; simp [idxWhere]
  | cons c rest ih =>
    intro s
    simp only [idxWhere]
    by_cases hp : p c = true
    · rw [if_pos hp, List.countP_cons_of_pos _ _ hp]
      simp [ih]
    · rw [if_neg hp, List.countP_cons_of_neg _ _ hp]
      exact ih (s + 1)

theorem idxWhere_pairwise (p : Option ProtReason → Bool) :
    ∀ (cls : List (Option ProtReason)) (s : Nat),
      (idxWhere p cls s).Pairwise (· < ·) := by
  intro cls
  induction cls with
  | nil => intro s; simp [idxWhere]
  | cons c rest ih =>
    intro s
    simp only [idxWhere]
    by_cases hp : p c = true
    · rw [if_pos hp]
      refine List.Pairwise.cons ?_ (ih (s + 1))
      intro y hy
      have := (idxWhere_mem p rest (s + 1) y).mp hy
      omega
    · rw [if_neg hp]
      exact ih (s + 1)

theorem idxWhere_nodup (p : Option ProtReason → Bool)
    (cls : List (Option ProtReason)) (s : Nat) : (idxWhere p cls s).Nodup :=
  (idxWhere_pairwise p cls s).imp Nat.ne_of_lt

theorem removeByIdx_length (R : List Nat) :
    ∀ (flows : List Flow) (s : Nat),
      (removeByIdx R flows s).length +
        (List.range' s flows.length).countP R.contains =
        flows.length := by
  intro flows
  induction flows with
  | nil => intro s; simp [removeByIdx]
  | cons f rest ih =>
    intro s
    simp only [removeByIdx, List.length_cons, List.range'_succ]
    by_cases hc : R.contains s = true
    · rw [if_pos hc, List.countP_cons_of_pos _ _ hc]
      have := ih (s + 1)
      omega
    · rw [if_neg hc, List.countP_cons_of_neg _ _ hc]
      simp only [List.length_cons]
      have := ih (s + 1)
      omega

theorem countP_contains_range (R : List Nat) (n : Nat) (hnd : R.Nodup)
    (hsub : ∀ j ∈ R, j < n) :
    (List.range' 0 n).countP R.contains = R.length := by
  rw [List.countP_eq_length_filter]
  have hperm : List.Perm ((List.range' 0 n).filter R.contains) R := by
    apply List.perm_of_nodup_nodup_toFinset_eq
    · exact (List.filter_sublist _).nodup (List.nodup_range' 0 n)
    · exact hnd
    · ext j
      simp only [List.mem_toFinset, List.mem_filter, List.mem_range'_1]
      constructor
      · rintro ⟨_, hc⟩
        exact List.elem_iff.mp hc
      · intro hj
        exact ⟨⟨Nat.zero_le j, by simpa using hsub j hj⟩, List.elem_iff.mpr hj⟩
  exact hperm.length_eq

theorem removeByIdx_mem (R : List Nat) :
    ∀ (flows : List Flow) (s j : Nat), j < flows.length →
      R.contains (s + j) = false →
      flows.getD j default ∈ removeByIdx R flows s := by
  intro flows
  induction flows with
  | nil =>
    intro s j hj
    simp at hj
  | cons f rest ih =>
    intro s j hj hc
    simp only [removeByIdx]
    match j with
    | 0 =>
      rw [Nat.add_zero] at hc
      rw [if_neg (by rw [hc]; exact Bool.false_ne_true)]
      simp
    | Nat.succ i =>
      have hc2 : R.contains (s + 1 + i) = false := by
        rw [show s + 1 + i = s + (i + 1) by omega]
        exact hc
      have hmem := ih (s + 1) i (by simpa using hj) hc2
      by_cases hcs : R.contains s = true
      · rw [if_pos hcs]
        simpa using hmem
      · rw [if_neg hcs]
        simp only [List.getD_cons_succ]
        exact List.mem_cons_of_mem f hmem

theorem lruSortedFS_perm (now : Int) (fs : FlowStore) :
    List.Perm (lruSortedFS now fs) (lruIdxFS now fs) := by
  unfold lruSortedFS
  have h := (List.perm_insertionSort (fun a b => a.2 ≤ b.2)
    ((lruIdxFS now fs).map
      (fun i => (i, (fs.flows.getD i default).LastAccessed)))).map (fun q => q.1)
  have h2 : List.map ((fun q : Nat × Int => q.1) ∘
      fun i => (i, (fs.flows.getD i default).LastAccessed)) (lruIdxFS now fs) =
      lruIdxFS now fs := by
    rw [show ((fun q : Nat × Int => q.1) ∘
      fun i => (i, (fs.flows.getD i default).LastAccessed)) = fun i => i from rfl]
    simp
  rw [List.map_map, h2] at h
  exact h

theorem clsFS_length (now : Int) (fs : FlowStore) :
    (clsFS now fs).length = fs.flows.length :=
  classifyFlows_length now fs.evictionConfig (thrFS fs) (topKCountFS fs) fs.flows 0

theorem evictableFS_spec (now : Int) (fs : FlowStore) (j : Nat) :
    j ∈ evictableFS now fs ↔
      j < fs.flows.length ∧ (clsFS now fs).getD j none = none := by
  unfold evictableFS
  rw [idxWhere_mem]
  rw [Nat.sub_zero, clsFS_length]
  constructor
  · rintro ⟨_, h2, h3⟩
    exact ⟨h2, by simpa using h3⟩
  · rintro ⟨h2, h3⟩
    exact ⟨Nat.zero_le j, h2, by simpa using h3⟩

theorem lruIdxFS_spec (now : Int) (fs : FlowStore) (j : Nat) :
    j ∈ lruIdxFS now fs ↔
      j < fs.flows.length ∧ (clsFS now fs).getD j none = some ProtReason.lru := by
  unfold lruIdxFS
  rw [idxWhere_mem]
  rw [Nat.sub_zero, clsFS_length]
  constructor
  · rintro ⟨_, h2, h3⟩
    exact ⟨h2, by simpa using h3⟩
  · rintro ⟨h2, h3⟩
    exact ⟨Nat.zero_le j, h2, by simpa using h3⟩

theorem evictRemovedIdx_spec (now : Int) (fs : FlowStore) :
    ∀ j ∈ evictRemovedIdx now fs,
      j < fs.flows.length ∧
        ((clsFS now fs).getD j none = none ∨
         (clsFS now fs).getD j none = some ProtReason.lru) := by
  intro j hj
  unfold evictRemovedIdx at hj
  by_cases hb : ((evictableFS now fs).take (fs.flows.length - fs.maxFlows)).length
      < fs.flows.length - fs.maxFlows
  · rw [if_pos hb] at hj
    rcases List.mem_append.mp hj with hj1 | hj2
    · have := (evictableFS_spec now fs j).mp (List.take_subset _ _ hj1)
      exact ⟨this.1, Or.inl this.2⟩
    · have hmem := (lruSortedFS_perm now fs).mem_iff.mp (List.take_subset _ _ hj2)
      have := (lruIdxFS_spec now fs j).mp hmem
      exact ⟨this.1, Or.inr this.2⟩
  · rw [if_neg hb] at hj
    have := (evictableFS_spec now fs j).mp (List.take_subset _ _ hj)
    exact ⟨this.1, Or.inl this.2⟩

theorem evictableFS_nodup (now : Int) (fs : FlowStore) :
    (evictableFS now fs).Nodup :=
  idxWhere_nodup _ _ _

theorem lruSortedFS_nodup (now : Int) (fs : FlowStore) :
    (lruSortedFS now fs).Nodup :=
  ((lruSortedFS_perm now fs).symm.nodup (idxWhere_nodup _ _ _))

theorem evictRemovedIdx_nodup (now : Int) (fs : FlowStore) :
    (evictRemovedIdx now fs).Nodup := by
  unfold evictRemovedIdx
  by_cases hb : ((evictableFS now fs).take (fs.flows.length - fs.maxFlows)).length
      < fs.flows.length - fs.maxFlows
  · rw [if_pos hb]
    apply List.Nodup.append
    · exact (List.take_sublist _ _).nodup (evictableFS_nodup now fs)
    · exact (List.take_sublist _ _).nodup (lruSortedFS_nodup now fs)
    · intro j hj1 hj2
      have h1 := (evictableFS_spec now fs j).mp (List.take_subset _ _ hj1)
      have h2 := (lruIdxFS_spec now fs j).mp
        ((lruSortedFS_perm now fs).mem_iff.mp (List.take_subset _ _ hj2))
      rw [h1.2] at h2
      exact Option.noConfusion h2.2
  · rw [if_neg hb]
    exact (List.take_sublist _ _).nodup (evictableFS_nodup now fs)

theorem lruSortedFS_length (now : Int) (fs : FlowStore) :
    (lruSortedFS now fs).length = (lruIdxFS now fs).length :=
  (lruSortedFS_perm now fs).length_eq

theorem evictRemovedIdx_length (now : Int) (fs : FlowStore) :
    (evictRemovedIdx now fs).length =
      min (fs.flows.length - fs.maxFlows)
        ((evictableFS now fs).length + (lruIdxFS now fs).length) := by
  unfold evictRemovedIdx
  by_cases hb : ((evictableFS now fs).take (fs.flows.length - fs.maxFlows)).length
      < fs.flows.length - fs.maxFlows
  · rw [if_pos hb]
    rw [List.length_append, List.length_take, List.length_take,
      lruSortedFS_length]
    rw [List.length_take] at hb
    omega
  · rw [if_neg hb]
    rw [List.length_take] at hb ⊢
    omega

theorem evictFlows_flows (now : Int) (fs : FlowStore)
    (h : fs.maxFlows < fs.flows.length) :
    (evictFlows now fs).flows = removeByIdx (evictRemovedIdx now fs) fs.flows 0 := by
  unfold evictFlows
  rw [if_neg (by omega)]

theorem evictFlows_fields (now : Int) (fs : FlowStore) :
    (evictFlows now fs).maxFlows = fs.maxFlows ∧
      (evictFlows now fs).evictionConfig = fs.evictionConfig := by
  unfold evictFlows
  dsimp only
  by_cases h : fs.flows.length - fs.maxFlows = 0
  · rw [if_pos h]
    exact ⟨rfl, rfl⟩
  · rw [if_neg h]
    exact ⟨rfl, rfl⟩

theorem evictFlows_length (now : Int) (fs : FlowStore)
    (h : fs.maxFlows < fs.flows.length) :
    (evictFlows now fs).flows.length =
      fs.flows.length - (evictRemovedIdx now fs).length := by
  rw [evictFlows_flows now fs h]
  have hcount := removeByIdx_length (evictRemovedIdx now fs) fs.flows 0
  rw [countP_contains_range (evictRemovedIdx now fs) fs.flows.length
    (evictRemovedIdx_nodup now fs)
    (fun j hj => (evictRemovedIdx_spec now fs j hj).1)] at hcount
  omega

theorem evictFlows_cap (now : Int) (fs : FlowStore) :
    (evictFlows now fs).flows.length ≤ max fs.maxFlows (topKCountFS fs) := by
  by_cases h : fs.maxFlows < fs.flows.length
  · rw [evictFlows_length now fs h, evictRemovedIdx_length now fs]
    have hpart := optReason_partition (clsFS now fs)
    have hE : (evictableFS now fs).length =
        (clsFS now fs).countP (fun c => c = none) := idxWhere_length _ _ _
    have hL : (lruIdxFS now fs).length =
        (clsFS now fs).countP (fun c => c = some ProtReason.lru) :=
      idxWhere_length _ _ _
    have hK : (clsFS now fs).countP (fun c => c = some ProtReason.topk) ≤
        topKCountFS fs := by
      have := classifyFlows_topk_le now fs.evictionConfig (thrFS fs)
        (topKCountFS fs) fs.flows 0
      simpa using this
    have hlen := clsFS_length now fs
    omega
  · unfold evictFlows
    rw [if_pos (by omega)]
    omega

theorem contains_eq_false_of_not_mem {R : List Nat} {j : Nat} (h : j ∉ R) :
    R.contains j = false := by
  cases hc : R.contains j
  · rfl
  · exact absurd (List.elem_iff.mp hc) h

theorem foldl_addOne_fields :
    ∀ (batch : List Flow) (fs : FlowStore),
      (batch.foldl addOne fs).maxFlows = fs.maxFlows ∧
        (batch.foldl addOne fs).evictionConfig = fs.evictionConfig := by
  intro batch
  induction batch with
  | nil => intro fs; exact ⟨rfl, rfl⟩
  | cons f rest ih =>
    intro fs
    simp only [List.foldl_cons]
    exact ih (addOne fs f)

theorem add_fields (fs : FlowStore) (now : Int) (batch : List Flow) :
    (fs.Add now batch).maxFlows = fs.maxFlows ∧
      (fs.Add now batch).evictionConfig = fs.evictionConfig := by
  unfold FlowStore.Add
  by_cases hb : batch.isEmpty = true
  · rw [if_pos hb]
    exact ⟨rfl, rfl⟩
  · rw [if_neg hb]
    dsimp only
    by_cases ho : (batch.foldl addOne fs).maxFlows < (batch.foldl addOne fs).flows.length
    · rw [if_pos ho]
      have h1 := evictFlows_fields now (batch.foldl addOne fs)
      have h2 := foldl_addOne_fields batch fs
      exact ⟨h1.1.trans h2.1, h1.2.trans h2.2⟩
    · rw [if_neg ho]
      exact foldl_addOne_fields batch fs

theorem add_cap (fs : FlowStore) (now : Int) (batch : List Flow)
    (hinv : fs.flows.length ≤ fs.maxFlows + topKCountFS fs) :
    (fs.Add now batch).flows.length ≤ fs.maxFlows + topKCountFS fs := by
  unfold FlowStore.Add
  by_cases hb : batch.isEmpty = true
  · rw [if_pos hb]
    exact hinv
  · rw [if_neg hb]
    dsimp only
    have hfields := foldl_addOne_fields batch fs
    by_cases ho : (batch.foldl addOne fs).maxFlows < (batch.foldl addOne fs).flows.length
    · rw [if_pos ho]
      have hcap := evictFlows_cap now (batch.foldl addOne fs)
      have hKeq : topKCountFS (batch.foldl addOne fs) = topKCountFS fs := by
        unfold topKCountFS
        rw [hfields.1, hfields.2]
      rw [hKeq, hfields.1] at hcap
      omega
    · rw [if_neg ho]
      have h1 := hfields.1
      omega

theorem foldl_add_inv :
    ∀ (seq : List (Int × List Flow)) (fs : FlowStore),
      fs.flows.length ≤ fs.maxFlows + topKCountFS fs →
      (seq.foldl (fun s nb => s.Add nb.1 nb.2) fs).flows.length ≤
          (seq.foldl (fun s nb => s.Add nb.1 nb.2) fs).maxFlows +
            topKCountFS (seq.foldl (fun s nb => s.Add nb.1 nb.2) fs) ∧
        (seq.foldl (fun s nb => s.Add nb.1 nb.2) fs).maxFlows = fs.maxFlows ∧
        (seq.foldl (fun s nb => s.Add nb.1 nb.2) fs).evictionConfig =
          fs.evictionConfig := by
  intro seq
  induction seq with
  | nil => intro fs hinv; exact ⟨hinv, rfl, rfl⟩
  | cons nb rest ih =>
    intro fs hinv
    simp only [List.foldl_cons]
    have hstep := add_cap fs nb.1 nb.2 hinv
    have hfields := add_fields fs nb.1 nb.2
    have hKeq : topKCountFS (fs.Add nb.1 nb.2) = topKCountFS fs := by
      unfold topKCountFS
      rw [hfields.1, hfields.2]
    have := ih (fs.Add nb.1 nb.2) (by rw [hKeq, hfields.1]; exact hstep)
    exact ⟨this.1, this.2.1.trans hfields.1, this.2.2.trans hfields.2⟩

/-- C2: for a store created with `maxFlows` and eviction config
`topKPercent`, after any finite sequence of `Add` calls (each with its
own wall-clock time and batch), `GetFlowCount()` never exceeds
`maxFlows + topKCount` with
`topKCount = floor(maxFlows * topKPercent / 100)`: the eviction pass
never removes Top-K protected flows, so the store can exceed `maxFlows`
only by the Top-K protected count. -/
theorem store_cap_invariant (maxFlows : Nat) (cfg : EvictionConfig)
    (seq : List (Int × List Flow)) :
    (seq.foldl (fun s nb => s.Add nb.1 nb.2)
        (NewWithConfig maxFlows cfg)).GetFlowCount ≤
      (NewWithConfig maxFlows cfg).maxFlows +
        topKCountOf (NewWithConfig maxFlows cfg).maxFlows cfg.TopKPercent := by
  have h := foldl_add_inv seq (NewWithConfig maxFlows cfg) (by
    show (0 : Nat) ≤ _
    exact Nat.zero_le _)
  unfold FlowStore.GetFlowCount
  have hKeq : topKCountFS (seq.foldl (fun s nb => s.Add nb.1 nb.2)
      (NewWithConfig maxFlows cfg)) =
      topKCountOf (NewWithConfig maxFlows cfg).maxFlows cfg.TopKPercent := by
    unfold topKCountFS
    rw [h.2.1, h.2.2]
    rfl
  rw [hKeq] at h
  omega

theorem classify_all_topk (now : Int) (cfg : EvictionConfig) (thr K : Nat)
    (hthr : 0 < thr) :
    ∀ (flows : List Flow) (k : Nat),
      flows.countP (fun f => thr ≤ f.Bytes) + k ≤ K →
      ∀ j, j < flows.length → thr ≤ (flows.getD j default).Bytes →
      (classifyFlows now cfg thr K flows k).getD j none = some ProtReason.topk := by
  intro flows
  induction flows with
  | nil =>
    intro k _ j hj
    simp at hj
  | cons f rest ih =>
    intro k hcount j hj hbytes
    simp only [classifyFlows]
    by_cases hf : thr ≤ f.Bytes
    · have hcp : rest.countP (fun f => thr ≤ f.Bytes) + (k + 1) ≤ K := by
        rw [List.countP_cons_of_pos _ _ (by simpa using hf)] at hcount
        omega
      have hkK : k < K := by
        rw [List.countP_cons_of_pos _ _ (by simpa using hf)] at hcount
        omega
      rw [if_pos ⟨hthr, hf, hkK⟩]
      match j with
      | 0 => simp
      | Nat.succ i =>
        rw [List.getD_cons_succ]
        exact ih (k + 1) hcp i (by simpa using hj)
          (by simpa using hbytes)
    · have hcp : rest.countP (fun f => thr ≤ f.Bytes) + k ≤ K := by
        rw [List.countP_cons_of_neg _ _ (by simpa using hf)] at hcount
        exact hcount
      rw [if_neg (by rintro ⟨_, hcontra, _⟩; exact hf hcontra)]
      match j with
      | 0 => exact absurd (by simpa using hbytes) hf
      | Nat.succ i =>
        split
        · rw [List.getD_cons_succ]
          exact ih k hcp i (by simpa using hj) (by simpa using hbytes)
        · rw [List.getD_cons_succ]
          exact ih k hcp i (by simpa using hj) (by simpa using hbytes)

theorem thr_pos_of_unique (fs : FlowStore) (thr : Nat)
    (hthr : thr = thrFS fs)
    (hKlt : topKCountFS fs < fs.flows.length)
    (hcount : fs.flows.countP (fun f => thr ≤ f.Bytes) = topKCountFS fs) :
    0 < thr := by
  by_contra h
  have hz : thr = 0 := by omega
  rw [hz] at hcount
  have hall : fs.flows.countP (fun f => 0 ≤ f.Bytes) = fs.flows.length :=
    List.countP_eq_length.mpr (fun a _ => by simp)
  omega

/-- C4: when the Top-K set is unambiguous — exactly `topKCount` flows
have bytes at or above the pass threshold `T` (the `topKCount`-th
largest byte count), with `topKCount < flowCount` — the eviction pass
removes none of those flows (in particular none is removed while flows
with strictly smaller byte counts remain).  The spec's elephant
scenario (maxFlows=100, topKPercent=1, 100 × 1 KB flows, one 1 GB flow,
one more 1 KB flow) instantiates this: see the witness. -/
theorem topk_protection (now : Int) (fs : FlowStore) (thr : Nat)
    (hthr : thr = thrFS fs)
    (hKlt : topKCountFS fs < fs.flows.length)
    (hcount : fs.flows.countP (fun f => thr ≤ f.Bytes) = topKCountFS fs) :
    ∀ f ∈ fs.flows, thr ≤ f.Bytes → f ∈ (evictFlows now fs).flows := by
  intro f hf hbytes
  have hthr0 : 0 < thr := thr_pos_of_unique fs thr hthr hKlt hcount
  obtain ⟨j, hj, hje⟩ := List.mem_iff_getElem.mp hf
  have hcls : (clsFS now fs).getD j none = some ProtReason.topk := by
    unfold clsFS
    refine classify_all_topk now fs.evictionConfig (thrFS fs) (topKCountFS fs)
      (hthr ▸ hthr0) fs.flows 0 ?_ j hj ?_
    · rw [Nat.add_zero, ← hthr]
      exact Nat.le_of_eq hcount
    · rw [List.getD_eq_getElem _ _ hj, hje, ← hthr]
      exact hbytes
  by_cases hev : fs.maxFlows < fs.flows.length
  · rw [evictFlows_flows now fs hev]
    have hnotR : j ∉ evictRemovedIdx now fs := by
      intro hjR
      rcases (evictRemovedIdx_spec now fs j hjR).2 with hc | hc
      · rw [hcls] at hc
        exact Option.noConfusion hc
      · rw [hcls] at hc
        exact ProtReason.noConfusion (Option.some.inj hc)
    have hmem := removeByIdx_mem (evictRemovedIdx now fs) fs.flows 0 j hj
      (by rw [Nat.zero_add]; exact contains_eq_false_of_not_mem hnotR)
    rw [List.getD_eq_getElem _ _ hj, hje] at hmem
    exact hmem
  · unfold evictFlows
    rw [if_pos (by omega)]
    exact hf

/-- Witness for the Top-K protection theorem: the spec's elephant
scenario at the second eviction trigger — 99 flows of 1 KB, the 1 GB
flow, one more 1 KB flow, `maxFlows = 100`, `topKPercent = 1`
(`topKCount = 1`, threshold = 1 GB).  The 1 GB flow survives the pass. -/
theorem topk_protection_witness :
    ({ Bytes := 1073741824 } : Flow) ∈
      (evictFlows 0
        { flows := List.replicate 99 ({ Bytes := 1024 } : Flow) ++
            [({ Bytes := 1073741824 } : Flow), ({ Bytes := 1024 } : Flow)]
          maxFlows := 100
          evictionConfig := { TopKPercent := 1, LRUWindow := 300000000000 } }).flows :=
  topk_protection 0
    { flows := List.replicate 99 ({ Bytes := 1024 } : Flow) ++
        [({ Bytes := 1073741824 } : Flow), ({ Bytes := 1024 } : Flow)]
      maxFlows := 100
      evictionConfig := { TopKPercent := 1, LRUWindow := 300000000000 } }
    1073741824 (by decide) (by decide) (by decide)
    ({ Bytes := 1073741824 } : Flow) (by decide) (by decide)

theorem take_eq_self_of_branch (now : Int) (fs : FlowStore)
    (hb : ((evictableFS now fs).take (fs.flows.length - fs.maxFlows)).length
      < fs.flows.length - fs.maxFlows) :
    (evictableFS now fs).take (fs.flows.length - fs.maxFlows) =
      evictableFS now fs := by
  rw [List.length_take] at hb
  exact List.take_of_length_le (by omega)

/-- C5: in an eviction pass, as long as some unprotected flow survives
the pass, every LRU-protected flow (not Top-K, `LastAccessed` within
`LRUWindow` of the pass time) survives it; LRU protection is relaxed
only after every unprotected flow has been taken, and then
LRU-protected flows are removed in ascending `LastAccessed` order (a
removed one never has a larger `LastAccessed` than a surviving one)
until the eviction target is met or the LRU pool is exhausted. -/
theorem lru_protection (now : Int) (fs : FlowStore)
    (_hover : fs.maxFlows < fs.flows.length) :
    ((∃ j, j ∈ evictableFS now fs ∧ j ∉ evictRemovedIdx now fs) →
      ∀ i ∈ lruIdxFS now fs, i ∉ evictRemovedIdx now fs) ∧
    (∀ i j, i ∈ lruIdxFS now fs → j ∈ lruIdxFS now fs →
      i ∈ evictRemovedIdx now fs → j ∉ evictRemovedIdx now fs →
      (fs.flows.getD i default).LastAccessed ≤
        (fs.flows.getD j default).LastAccessed) ∧
    (evictRemovedIdx now fs).length =
      min (fs.flows.length - fs.maxFlows)
        ((evictableFS now fs).length + (lruIdxFS now fs).length) := by
  refine ⟨?_, ?_, evictRemovedIdx_length now fs⟩
  · rintro ⟨j0, hj0E, hj0R⟩ i hiL hiR
    unfold evictRemovedIdx at hiR hj0R
    by_cases hb : ((evictableFS now fs).take (fs.flows.length - fs.maxFlows)).length
        < fs.flows.length - fs.maxFlows
    · rw [if_pos hb] at hj0R
      exact hj0R (List.mem_append_left _
        ((take_eq_self_of_branch now fs hb).symm ▸ hj0E))
    · rw [if_neg hb] at hiR
      have hE := (evictableFS_spec now fs i).mp (List.take_subset _ _ hiR)
      have hL := (lruIdxFS_spec now fs i).mp hiL
      rw [hE.2] at hL
      exact Option.noConfusion hL.2
  · intro i j hiL hjL hiR hjR
    unfold evictRemovedIdx at hiR hjR
    by_cases hb : ((evictableFS now fs).take (fs.flows.length - fs.maxFlows)).length
        < fs.flows.length - fs.maxFlows
    · rw [if_pos hb] at hiR hjR
      rcases List.mem_append.mp hiR with hiE | hiT
      · have hE := (evictableFS_spec now fs i).mp (List.take_subset _ _ hiE)
        have hL := (lruIdxFS_spec now fs i).mp hiL
        rw [hE.2] at hL
        exact absurd hL.2 (fun hc => Option.noConfusion hc)
      · -- i is among the removed LRU indices, j is a surviving LRU index
        have hjT : j ∉ (lruSortedFS now fs).take
            (fs.flows.length - fs.maxFlows -
              ((evictableFS now fs).take (fs.flows.length - fs.maxFlows)).length) := by
          intro hjmem
          exact hjR (List.mem_append_right _ hjmem)
        have hjS : j ∈ lruSortedFS now fs :=
          (lruSortedFS_perm now fs).mem_iff.mpr hjL
        set r2 := fs.flows.length - fs.maxFlows -
          ((evictableFS now fs).take (fs.flows.length - fs.maxFlows)).length with hr2
        have hjD : j ∈ (lruSortedFS now fs).drop r2 := by
          rcases List.mem_append.mp
            ((List.take_append_drop r2 (lruSortedFS now fs)) ▸ hjS) with h | h
          · exact absurd h hjT
          · exact h
        -- switch to the sorted pair list
        unfold lruSortedFS at hiT hjD
        rw [← List.map_take] at hiT
        rw [← List.map_drop] at hjD
        obtain ⟨pi, hpi, hpie⟩ := List.mem_map.mp hiT
        obtain ⟨pj, hpj, hpje⟩ := List.mem_map.mp hjD
        haveI : IsTotal (Nat × Int) (fun a b => a.2 ≤ b.2) :=
          ⟨fun a b => le_total a.2 b.2⟩
        haveI : IsTrans (Nat × Int) (fun a b => a.2 ≤ b.2) :=
          ⟨fun a b c hab hbc => le_trans hab hbc⟩
        have hsorted := List.sorted_insertionSort (fun a b => a.2 ≤ b.2)
          ((lruIdxFS now fs).map
            (fun i => (i, (fs.flows.getD i default).LastAccessed)))
        have hpair : pi.2 ≤ pj.2 := by
          have hsplit := List.take_append_drop r2 (List.insertionSort
            (fun a b => a.2 ≤ b.2) ((lruIdxFS now fs).map
              (fun i => (i, (fs.flows.getD i default).LastAccessed))))
          rw [List.Sorted, ← hsplit, List.pairwise_append] at hsorted
          exact hsorted.2.2 pi hpi pj hpj
        -- identify the pair components with the original LastAccessed values
        have hpi2 : pi ∈ (lruIdxFS now fs).map
            (fun i => (i, (fs.flows.getD i default).LastAccessed)) :=
          (List.perm_insertionSort _ _).mem_iff.mp (List.take_subset _ _ hpi)
        have hpj2 : pj ∈ (lruIdxFS now fs).map
            (fun i => (i, (fs.flows.getD i default).LastAccessed)) :=
          (List.perm_insertionSort _ _).mem_iff.mp (List.drop_subset _ _ hpj)
        obtain ⟨xi, _, hxie⟩ := List.mem_map.mp hpi2
        obtain ⟨xj, _, hxje⟩ := List.mem_map.mp hpj2
        have hpi2e : pi.2 = (fs.flows.getD i default).LastAccessed := by
          rw [← hxie] at hpie ⊢
          simp only at hpie ⊢
          rw [show xi = i from hpie]
        have hpj2e : pj.2 = (fs.flows.getD j default).LastAccessed := by
          rw [← hxje] at hpje ⊢
          simp only at hpje ⊢
          rw [show xj = j from hpje]
        rw [← hpi2e, ← hpj2e]
        exact hpair
    · rw [if_neg hb] at hiR
      have hE := (evictableFS_spec now fs i).mp (List.take_subset _ _ hiR)
      have hL := (lruIdxFS_spec now fs i).mp hiL
      rw [hE.2] at hL
      exact absurd hL.2 (fun hc => Option.noConfusion hc)

/-- Witness for the LRU theorem: four flows, `maxFlows = 2` (so two must
go); flow 0 is unprotected, flows 1–3 are LRU-protected with
`LastAccessed` 10, 5, 20 at pass time 12.  The pass removes flow 0 and
then the least-recently-accessed LRU flow (index 2, `LastAccessed` 5):
a removed LRU flow's `LastAccessed` never exceeds a survivor's, and the
pass removes exactly `min(toEvict, unprotected + LRU)` flows. -/
theorem lru_protection_witness :
    ((({ flows := [{ Bytes := 1 },
                   { Bytes := 2, LastAccessed := 10 },
                   { Bytes := 3, LastAccessed := 5 },
                   { Bytes := 4, LastAccessed := 20 }]
         maxFlows := 2
         evictionConfig := { TopKPercent := 1, LRUWindow := 300000000000 } } :
        FlowStore).flows.getD 2 default).LastAccessed ≤
      (({ flows := [{ Bytes := 1 },
                    { Bytes := 2, LastAccessed := 10 },
                    { Bytes := 3, LastAccessed := 5 },
                    { Bytes := 4, LastAccessed := 20 }]
          maxFlows := 2
          evictionConfig := { TopKPercent := 1, LRUWindow := 300000000000 } } :
        FlowStore).flows.getD 1 default).LastAccessed) ∧
    (evictRemovedIdx 12
        { flows := [{ Bytes := 1 },
                    { Bytes := 2, LastAccessed := 10 },
                    { Bytes := 3, LastAccessed := 5 },
                    { Bytes := 4, LastAccessed := 20 }]
          maxFlows := 2
          evictionConfig := { TopKPercent := 1, LRUWindow := 300000000000 } }).length =
      min 2 (1 + 3) := by
  constructor
  · exact (lru_protection 12
      { flows := [{ Bytes := 1 },
                  { Bytes := 2, LastAccessed := 10 },
                  { Bytes := 3, LastAccessed := 5 },
                  { Bytes := 4, LastAccessed := 20 }]
        maxFlows := 2
        evictionConfig := { TopKPercent := 1, LRUWindow := 300000000000 } }
      (by decide)).2.1 2 1 (by decide) (by decide) (by decide) (by decide)
  · have h := (lru_protection 12
      { flows := [{ Bytes := 1 },
                  { Bytes := 2, LastAccessed := 10 },
                  { Bytes := 3, LastAccessed := 5 },
                  { Bytes := 4, LastAccessed := 20 }]
        maxFlows := 2
        evictionConfig := { TopKPercent := 1, LRUWindow := 300000000000 } }
      (by decide)).2.2
    rw [h]
    decide

theorem byteAt_append_left (l1 l2 : List Nat) (i : Nat) (h : i < l1.length) :
    byteAt (l1 ++ l2) i = byteAt l1 i := by
  unfold byteAt
  rw [List.getD_eq_getElem?_getD, List.getElem?_append, if_pos h,
    ← List.getD_eq_getElem?_getD]

theorem be16at_append_left (l1 l2 : List Nat) (i : Nat) (h : i + 1 < l1.length) :
    be16at (l1 ++ l2) i = be16at l1 i := by
  unfold be16at
  rw [byteAt_append_left l1 l2 i (by omega), byteAt_append_left l1 l2 (i + 1) h]

theorem be32at_append_left (l1 l2 : List Nat) (i : Nat) (h : i + 3 < l1.length) :
    be32at (l1 ++ l2) i = be32at l1 i := by
  unfold be32at
  rw [byteAt_append_left l1 l2 i (by omega), byteAt_append_left l1 l2 (i + 1) (by omega),
    byteAt_append_left l1 l2 (i + 2) (by omega), byteAt_append_left l1 l2 (i + 3) h]

theorem parseV9Sets_nil (exporter : List Nat) (bootTime now : Int)
    (sourceID : Nat) (k : Nat) (m : TemplateMap) :
    parseV9Sets exporter bootTime now sourceID k [] m = ([], m) := by
  cases k <;> simp [parseV9Sets]

theorem parseIPFIXSets_nil (exporter : List Nat) (baseTime now : Int)
    (obsD : Nat) (k : Nat) (m : TemplateMap) :
    parseIPFIXSets exporter baseTime now obsD k [] m = ([], m) := by
  cases k <;> simp [parseIPFIXSets]

theorem parseV9Sets_unknown_single (exporter : List Nat) (bootTime now : Int)
    (sourceID n i1 i2 l1 l2 : Nat) (payload : List Nat) (m : TemplateMap)
    (hid : 256 ≤ 256 * i1 + i2) (hlen : 256 * l1 + l2 = 4 + payload.length)
    (hlookup : List.lookup (sourceID, 256 * i1 + i2) m = none) :
    parseV9Sets exporter bootTime now sourceID (n + 1)
      (i1 :: i2 :: l1 :: l2 :: payload) m = ([], m) := by
  simp only [parseV9Sets]
  rw [if_neg (by omega), if_neg (by omega), if_neg (by omega), if_pos hid, hlookup]
  rw [show 256 * l1 + l2 - 4 = payload.length by omega, List.drop_length]
  exact parseV9Sets_nil _ _ _ _ _ _

theorem parseIPFIXSets_unknown_single (exporter : List Nat) (baseTime now : Int)
    (obsD n i1 i2 l1 l2 : Nat) (payload : List Nat) (m : TemplateMap)
    (hid : 256 ≤ 256 * i1 + i2) (hlen : 256 * l1 + l2 = 4 + payload.length)
    (hlookup : List.lookup (obsD, 256 * i1 + i2) m = none) :
    parseIPFIXSets exporter baseTime now obsD (n + 1)
      (i1 :: i2 :: l1 :: l2 :: payload) m = ([], m) := by
  simp only [parseIPFIXSets]
  rw [if_neg (by omega), if_neg (by omega), if_neg (by omega), if_pos hid, hlookup]
  rw [show 256 * l1 + l2 - 4 = payload.length by omega, List.drop_length]
  exact parseIPFIXSets_nil _ _ _ _ _ _

/-- C7: a NetFlow v9 Data FlowSet / IPFIX Data Set (id ≥ 256) whose
template id is unknown for the exporter's sourceId / observation domain
is discarded silently: the parse succeeds, yields no flows, and leaves
the parser state unchanged.  The packet is a header (`hdr`) followed by
a single data flowset/set with id `256*i1+i2` and declared length
`256*l1+l2` covering the rest of the packet. -/
theorem unknown_template_data_set_silent (p : Parser) (now : Int)
    (exporter hdr payload : List Nat) (i1 i2 l1 l2 : Nat) :
    (hdr.length = 20 → 1 ≤ be16at hdr 2 → 256 ≤ 256 * i1 + i2 →
      256 * l1 + l2 = 4 + payload.length →
      List.lookup (be32at hdr 16, 256 * i1 + i2) p.v9Templates = none →
      parseNetFlowV9 p now exporter (hdr ++ i1 :: i2 :: l1 :: l2 :: payload) =
        some ([], p)) ∧
    (hdr.length = 16 → be16at hdr 2 = 20 + payload.length →
      256 ≤ 256 * i1 + i2 →
      256 * l1 + l2 = 4 + payload.length →
      List.lookup (be32at hdr 12, 256 * i1 + i2) p.ipfixTemplates = none →
      parseIPFIX p now exporter (hdr ++ i1 :: i2 :: l1 :: l2 :: payload) =
        some ([], p)) := by
  constructor
  · intro hhdr hcount hid hlen hlookup
    have hdlen : (hdr ++ i1 :: i2 :: l1 :: l2 :: payload).length = 24 + payload.length := by
      simp [hhdr]; omega
    unfold parseNetFlowV9
    rw [if_neg (by rw [hdlen]; unfold netflowV9HeaderSize; omega)]
    rw [show (hdr ++ i1 :: i2 :: l1 :: l2 :: payload).drop netflowV9HeaderSize
        = i1 :: i2 :: l1 :: l2 :: payload by
      rw [show netflowV9HeaderSize = hdr.length by rw [hhdr]; rfl]
      exact List.drop_left hdr _]
    rw [be16at_append_left hdr _ 2 (by omega), be32at_append_left hdr _ 16 (by omega)]
    obtain ⟨n, hn⟩ : ∃ n, be16at hdr 2 = n + 1 :=
      ⟨be16at hdr 2 - 1, by omega⟩
    rw [hn]
    dsimp only
    rw [parseV9Sets_unknown_single exporter _ now (be32at hdr 16) n i1 i2 l1 l2
      payload p.v9Templates hid hlen hlookup]
  · intro hhdr hlenfield hid hlen hlookup
    have hdlen : (hdr ++ i1 :: i2 :: l1 :: l2 :: payload).length = 20 + payload.length := by
      simp [hhdr]; omega
    unfold parseIPFIX
    rw [if_neg (by rw [hdlen]; unfold ipfixHeaderSize; omega)]
    rw [be16at_append_left hdr _ 2 (by omega), be32at_append_left hdr _ 12 (by omega)]
    rw [if_neg (by omega)]
    rw [show (hdr ++ i1 :: i2 :: l1 :: l2 :: payload).take (be16at hdr 2)
        = hdr ++ i1 :: i2 :: l1 :: l2 :: payload by
      rw [show be16at hdr 2 = (hdr ++ i1 :: i2 :: l1 :: l2 :: payload).length by
        rw [hdlen, hlenfield]]
      exact List.take_length _]
    rw [show (hdr ++ i1 :: i2 :: l1 :: l2 :: payload).drop ipfixHeaderSize
        = i1 :: i2 :: l1 :: l2 :: payload by
      rw [show ipfixHeaderSize = hdr.length by rw [hhdr]; rfl]
      exact List.drop_left hdr _]
    dsimp only
    rw [show (i1 :: i2 :: l1 :: l2 :: payload).length = payload.length + 4 by
      simp]
    rw [parseIPFIXSets_unknown_single exporter _ now (be32at hdr 12)
      (payload.length + 4) i1 i2 l1 l2 payload p.ipfixTemplates hid hlen hlookup]

/-- Witness for the unknown-template theorem: concrete v9 and IPFIX
packets carrying one data set each, against an empty template cache. -/
theorem unknown_template_data_set_silent_witness :
    parseNetFlowV9 Parser.New 0 [10, 0, 0, 99]
      ([0, 9, 0, 1, 0, 0, 0, 0, 0, 0, 0, 0, 0, 0, 0, 0, 0, 0, 0, 7] ++
        1 :: 0 :: 0 :: 8 :: [1, 2, 3, 4]) = some ([], Parser.New) ∧
    parseIPFIX Parser.New 0 [10, 0, 0, 99]
      ([0, 10, 0, 24, 0, 0, 0, 0, 0, 0, 0, 0, 0, 0, 0, 7] ++
        1 :: 0 :: 0 :: 8 :: [1, 2, 3, 4]) = some ([], Parser.New) := by
  constructor
  · exact (unknown_template_data_set_silent Parser.New 0 [10, 0, 0, 99]
      [0, 9, 0, 1, 0, 0, 0, 0, 0, 0, 0, 0, 0, 0, 0, 0, 0, 0, 0, 7]
      [1, 2, 3, 4] 1 0 0 8).1 (by decide) (by decide) (by decide) (by decide)
      (by decide)
  · exact (unknown_template_data_set_silent Parser.New 0 [10, 0, 0, 99]
      [0, 10, 0, 24, 0, 0, 0, 0, 0, 0, 0, 0, 0, 0, 0, 7]
      [1, 2, 3, 4] 1 0 0 8).2 (by decide) (by decide) (by decide) (by decide)
      (by decide)

theorem parseIPFIXTemplatesLoop_nil (obsD k : Nat) (acc : TemplateMap) :
    parseIPFIXTemplatesLoop obsD k [] acc = acc := by
  cases k <;> simp [parseIPFIXTemplatesLoop]

theorem parseIPFIXFieldSpecs_encode (fields : List TField) (extra : List Nat)
    (h : ∀ f ∈ fields, f.typ < 32768 ∧ f.len < 65536) :
    parseIPFIXFieldSpecs fields.length (encodeTFields fields ++ extra) =
      (fields.map (fun f => (⟨f.typ, f.len⟩ : FieldDef)),
       (fields.map (fun f => f.len)).sum,
       (encodeTFields fields).length) := by
  induction fields generalizing extra with
  | nil => simp [encodeTFields, parseIPFIXFieldSpecs]
  | cons f rest ih =>
    have hf := h f (by simp)
    have hrest : ∀ g ∈ rest, g.typ < 32768 ∧ g.len < 65536 :=
      fun g hg => h g (by simp [hg])
    have hlenfix : 256 * (f.len / 256) + f.len % 256 = f.len := by omega
    match hent : f.ent with
    | none =>
      simp only [encodeTFields, encodeTField, hent, List.cons_append, List.nil_append,
        List.length_cons, List.append_assoc]
      simp only [parseIPFIXFieldSpecs]
      have htypfix : 256 * (f.typ / 256) + f.typ % 256 = f.typ := by omega
      rw [htypfix, hlenfix]
      rw [if_neg (by omega)]
      rw [ih extra hrest]
      simp only [Nat.mod_eq_of_lt hf.1, List.length_append, encodeTField, hent,
        Prod.mk.injEq, List.length_cons, List.length_nil, List.map_cons,
        List.sum_cons, true_and]
      omega
    | some e =>
      simp only [encodeTFields, encodeTField, hent, List.cons_append, List.nil_append,
        List.length_cons, List.append_assoc]
      simp only [parseIPFIXFieldSpecs]
      have htypfix : 256 * ((32768 + f.typ) / 256) + (32768 + f.typ) % 256
          = 32768 + f.typ := by omega
      rw [htypfix, hlenfix]
      rw [if_pos (by omega)]
      rw [ih extra hrest]
      have hstrip : (32768 + f.typ) % 32768 = f.typ := by omega
      simp only [hstrip, List.length_append, encodeTField, hent,
        Prod.mk.injEq, List.length_cons, List.length_nil, List.map_cons,
        List.sum_cons, true_and]
      omega

theorem parseIPFIXTemplates_encode (obsD tid : Nat) (fields : List TField)
    (m : TemplateMap) (_htid : tid < 65536) (_hn : fields.length < 65536)
    (h : ∀ f ∈ fields, f.typ < 32768 ∧ f.len < 65536) :
    parseIPFIXTemplates (encodeTemplate tid fields) obsD m =
      ((obsD, tid),
        ⟨tid, fields.map (fun f => (⟨f.typ, f.len⟩ : FieldDef)),
          (fields.map (fun f => f.len)).sum⟩) :: m := by
  unfold parseIPFIXTemplates encodeTemplate
  simp only [List.cons_append, List.nil_append, List.length_cons]
  simp only [parseIPFIXTemplatesLoop]
  have htidfix : 256 * (tid / 256) + tid % 256 = tid := by omega
  have hcfix : 256 * (fields.length / 256) + fields.length % 256 = fields.length := by
    omega
  rw [htidfix, hcfix]
  rw [show encodeTFields fields = encodeTFields fields ++ [] by simp]
  rw [parseIPFIXFieldSpecs_encode fields [] h]
  simp only [List.append_nil, List.drop_length]
  rw [parseIPFIXTemplatesLoop_nil]

theorem parseRecordFields_append
    (apply : Nat → List Nat → Flow → Flow) (d1 d2 : List FieldDef)
    (record : List Nat) (off : Nat) (fl : Flow) :
    parseRecordFields apply (d1 ++ d2) record off fl =
      (parseRecordFields apply d1 record off fl).bind (fun fl2 =>
        parseRecordFields apply d2 record (off + (d1.map (·.Length)).sum) fl2) := by
  induction d1 generalizing off fl with
  | nil => simp [parseRecordFields]
  | cons fd rest ih =>
    simp only [List.cons_append, parseRecordFields]
    by_cases hb : record.length < off + fd.Length
    · simp [hb]
    · simp only [hb, if_false, List.append_eq]
      rw [ih]
      rw [show off + fd.Length + (rest.map (·.Length)).sum
          = off + ((fd :: rest).map (·.Length)).sum by simp; omega]

theorem applyIPFIXField_unhandled (baseTime : Int) (typ : Nat)
    (bytes : List Nat) (fl : Flow) (hmem : typ ∉ ipfixHandledTypes) :
    applyIPFIXField baseTime typ bytes fl = fl := by
  simp only [ipfixHandledTypes, List.mem_cons, List.not_mem_nil, or_false,
    not_or] at hmem
  obtain ⟨h1, h2, h3, h4, h5, h6, h7, h8, h9, h10, h11, h12, h13, h14, h15,
    h16, h17, h18⟩ := hmem
  unfold applyIPFIXField
  rw [if_neg h7, if_neg h1, if_neg h2, if_neg h3, if_neg h4, if_neg h5,
    if_neg h6]
  rw [if_neg h8, if_neg h9, if_neg h10, if_neg h11, if_neg h12, if_neg h13,
    if_neg h14, if_neg h15, if_neg h16, if_neg h17, if_neg h18]

/-- C1 (amended): the IPFIX template parser strips the enterprise bit,
skips the 4-byte enterprise number, and keeps the field in the template
under its stripped type with its declared length counted towards the
record length, so that

* part 1: a Template Set whose fields include enterprise fields decodes
  to a template listing every field with the enterprise bit removed and
  a record length equal to the sum of all declared lengths;
* part 2: the record decoder processes a field list `d1 ++ d2` by
  decoding `d2` at the offset that counts all of `d1`'s declared lengths
  (so the standard fields after an enterprise field stay aligned);
* part 3: a field whose (stripped) type is not one of the recognized
  standard ids populates no Flow field.

An enterprise field's bytes are therefore excluded from interpretation
only when its stripped type is not a recognized standard id (see the
counterexample for the colliding case). -/
theorem ipfix_enterprise_bit_handling :
    (∀ (obsD tid : Nat) (fields : List TField) (m : TemplateMap),
      tid < 65536 → fields.length < 65536 →
      (∀ f ∈ fields, f.typ < 32768 ∧ f.len < 65536) →
      parseIPFIXTemplates (encodeTemplate tid fields) obsD m =
        ((obsD, tid),
          ⟨tid, fields.map (fun f => (⟨f.typ, f.len⟩ : FieldDef)),
            (fields.map (fun f => f.len)).sum⟩) :: m) ∧
    (∀ (apply : Nat → List Nat → Flow → Flow) (d1 d2 : List FieldDef)
      (record : List Nat) (off : Nat) (fl : Flow),
      parseRecordFields apply (d1 ++ d2) record off fl =
        (parseRecordFields apply d1 record off fl).bind (fun fl2 =>
          parseRecordFields apply d2 record (off + (d1.map (·.Length)).sum) fl2)) ∧
    (∀ (baseTime : Int) (typ : Nat) (bytes : List Nat) (fl : Flow),
      typ ∉ ipfixHandledTypes → applyIPFIXField baseTime typ bytes fl = fl) := by
  exact ⟨parseIPFIXTemplates_encode, parseRecordFields_append,
    fun baseTime typ bytes fl hmem =>
      applyIPFIXField_unhandled baseTime typ bytes fl hmem⟩

/-- Witness for the amended enterprise-bit theorem: a template with an
enterprise field (stripped type 333, unhandled) followed by a srcPort
field; the template keeps both fields, the record length counts both,
and decoding leaves the flow untouched by the enterprise field while
the port is read at the aligned offset 4. -/
theorem ipfix_enterprise_bit_handling_witness :
    parseIPFIXTemplates
        (encodeTemplate 256 [⟨333, 4, some 99⟩, ⟨7, 2, none⟩]) 1 [] =
      [((1, 256), ⟨256, [⟨333, 4⟩, ⟨7, 2⟩], 6⟩)] ∧
    parseRecordFields (applyIPFIXField 0) ([⟨333, 4⟩] ++ [⟨7, 2⟩])
        [0, 0, 0, 42, 0, 80] 0 default =
      (parseRecordFields (applyIPFIXField 0) [⟨333, 4⟩]
        [0, 0, 0, 42, 0, 80] 0 default).bind (fun fl2 =>
          parseRecordFields (applyIPFIXField 0) [⟨7, 2⟩]
            [0, 0, 0, 42, 0, 80]
            (0 + ([(⟨333, 4⟩ : FieldDef)].map (·.Length)).sum) fl2) ∧
    applyIPFIXField 0 333 [0, 0, 0, 42] default = default := by
  refine ⟨?_, ?_, ?_⟩
  · rw [ipfix_enterprise_bit_handling.1 1 256 [⟨333, 4, some 99⟩, ⟨7, 2, none⟩] []
      (by decide) (by decide) (by decide)]
    decide
  · exact ipfix_enterprise_bit_handling.2.1 (applyIPFIXField 0) [⟨333, 4⟩] [⟨7, 2⟩]
      [0, 0, 0, 42, 0, 80] 0 default
  · exact ipfix_enterprise_bit_handling.2.2 0 333 [0, 0, 0, 42] default (by decide)

/-- C1 (counterexample to the claim as stated): the enterprise field is
kept in the template under its stripped type, so when the stripped type
collides with a standard id its bytes DO populate a Flow field.  The
packet below carries a template whose first field is the enterprise
field `0x8001` (stripped to 1 = IN_BYTES, length 4, enterprise number
99) followed by a standard srcPort field, then a data record
`[0,0,0,42, 0,80]`.  The enterprise field's bytes set `Flow.Bytes = 42`,
contradicting "the enterprise field's bytes populate no Flow field"
(while the port is still decoded correctly at the aligned offset). -/
theorem ipfix_enterprise_bit_counterexample :
    ((parseIPFIX Parser.New 0 [10, 0, 0, 99]
        ([0, 10, 0, 46, 0, 0, 0, 0, 0, 0, 0, 0, 0, 0, 0, 1] ++
         [0, 2, 0, 20, 1, 0, 0, 2, 128, 1, 0, 4, 0, 0, 0, 99, 0, 7, 0, 2] ++
         [1, 0, 0, 10, 0, 0, 0, 42, 0, 80])).map (fun r =>
      r.1.map (fun f => (f.Bytes, f.SrcPort)))) = some [(42, 80)] := by
  decide

/-- C6: `parseNetFlowV5` fails exactly when the payload is shorter than
`24 + 48 * count` bytes (`count` big-endian at bytes 2-3); otherwise it
returns exactly `count` flows whose addresses, ports, protocol, byte and
packet counters equal the big-endian fields at the fixed v5 record
offsets, with the 16-bit AS numbers zero-extended. -/
theorem netflowV5_truncation_and_roundtrip (now : Int) (exporter data : List Nat) :
    (data.length < 24 + 48 * be16at data 2 → parseNetFlowV5 now exporter data = none) ∧
    (24 + 48 * be16at data 2 ≤ data.length →
      ∃ fl, parseNetFlowV5 now exporter data = some fl ∧
        fl.length = be16at data 2 ∧
        ∀ i, (h : i < fl.length) →
          (fl.get ⟨i, h⟩).SrcAddr = slice data (24 + i * 48) 4 ∧
          (fl.get ⟨i, h⟩).DstAddr = slice data (24 + i * 48 + 4) 4 ∧
          (fl.get ⟨i, h⟩).SrcPort = be16at data (24 + i * 48 + 32) ∧
          (fl.get ⟨i, h⟩).DstPort = be16at data (24 + i * 48 + 34) ∧
          (fl.get ⟨i, h⟩).Protocol = byteAt data (24 + i * 48 + 38) ∧
          (fl.get ⟨i, h⟩).Bytes = be32at data (24 + i * 48 + 20) ∧
          (fl.get ⟨i, h⟩).Packets = be32at data (24 + i * 48 + 16) ∧
          (fl.get ⟨i, h⟩).SrcAS = be16at data (24 + i * 48 + 40) ∧
          (fl.get ⟨i, h⟩).DstAS = be16at data (24 + i * 48 + 42)) := by
  constructor
  · intro hshort
    unfold parseNetFlowV5
    by_cases h24 : data.length < netflowV5HeaderSize
    · simp [h24]
    · simp only [h24, if_false]
      have : data.length < netflowV5HeaderSize + be16at data 2 * netflowV5RecordSize := by
        unfold netflowV5HeaderSize netflowV5RecordSize
        omega
      simp [this]
  · intro hlong
    unfold parseNetFlowV5
    have h24 : ¬ data.length < netflowV5HeaderSize := by
      unfold netflowV5HeaderSize
      omega
    have hexp : ¬ data.length < netflowV5HeaderSize + be16at data 2 * netflowV5RecordSize := by
      unfold netflowV5HeaderSize netflowV5RecordSize
      omega
    simp only [h24, if_false, hexp]
    refine ⟨_, rfl, by simp, ?_⟩
    intro i h
    simp only [List.length_map, List.length_range] at h
    simp only [List.get_eq_getElem, List.getElem_map, List.getElem_range]
    unfold parseV5Record netflowV5HeaderSize netflowV5RecordSize
    simp only
    refine ⟨?_, ?_, ?_, ?_, ?_, ?_, ?_, ?_, ?_⟩
    · rw [slice_slice data _ 48 0 4 (by omega), Nat.add_zero]
    · rw [slice_slice data _ 48 4 4 (by omega)]
    · rw [be16at_slice data _ 48 32 (by omega)]
    · rw [be16at_slice data _ 48 34 (by omega)]
    · rw [byteAt_slice data _ 48 38 (by omega)]
    · rw [be32at_slice data _ 48 20 (by omega)]
    · rw [be32at_slice data _ 48 16 (by omega)]
    · rw [be16at_slice data _ 48 40 (by omega)]
    · rw [be16at_slice data _ 48 42 (by omega)]

/-- Witness for the NetFlow v5 theorem: a concrete 72-byte datagram with
one record is parsed into one flow with the encoded fields. -/
theorem netflowV5_truncation_and_roundtrip_witness :
    ∃ fl, parseNetFlowV5 0 [10, 0, 0, 99]
        ([0, 5, 0, 1, 0, 0, 0, 0, 0, 0, 0, 0, 0, 0, 0, 0,
          0, 0, 0, 0, 0, 0, 0, 0] ++
         [10, 0, 0, 1, 8, 8, 8, 8, 0, 0, 0, 0, 0, 1, 0, 2,
          0, 0, 0, 2, 0, 0, 0, 120, 0, 0, 0, 0, 0, 0, 0, 0,
          48, 57, 0, 53, 0, 0, 17, 0, 0, 7, 0, 9, 0, 0, 0, 0]) = some fl ∧
      fl.length = 1 := by
  have h := (netflowV5_truncation_and_roundtrip 0 [10, 0, 0, 99]
    ([0, 5, 0, 1, 0, 0, 0, 0, 0, 0, 0, 0, 0, 0, 0, 0,
      0, 0, 0, 0, 0, 0, 0, 0] ++
     [10, 0, 0, 1, 8, 8, 8, 8, 0, 0, 0, 0, 0, 1, 0, 2,
      0, 0, 0, 2, 0, 0, 0, 120, 0, 0, 0, 0, 0, 0, 0, 0,
      48, 57, 0, 53, 0, 0, 17, 0, 0, 7, 0, 9, 0, 0, 0, 0])).2 (by decide)
  obtain ⟨fl, hfl, hlen, _⟩ := h
  exact ⟨fl, hfl, by rw [hlen]; decide⟩

/-- C8: if parsing the (trimmed) filter string produced at least one
error, ParseFilter discards the partial root (Root = none), reports a
non-empty Error, and the resulting filter matches every flow. -/
theorem parse_error_filter_matches_all (s : String)
    (h : (parseFilterCore (goTrim s)).2 ≠ []) :
    (ParseFilter s).Root = none ∧ (ParseFilter s).Error ≠ "" ∧
      ∀ fl : Flow, (ParseFilter s).Matches fl = true := by
  have hne : goTrim s ≠ "" := by
    intro he
    rw [he] at h
    exact h (by decide)
  rcases hpc : parseFilterCore (goTrim s) with ⟨root, errs⟩
  have herrs : errs ≠ [] := by rw [hpc] at h; exact h
  unfold ParseFilter
  rw [if_neg hne, hpc]
  dsimp only
  rw [if_pos herrs]
  refine ⟨rfl, ?_, ?_⟩
  · intro hcontra
    have hlen := congrArg String.length hcontra
    rw [String.length_append] at hlen
    have h9 : ("invalid: " : String).length = 9 := rfl
    have h0 : ("" : String).length = 0 := rfl
    rw [h9, h0] at hlen
    omega
  · intro fl
    rfl

theorem parse_error_filter_matches_all_witness :
    (parseFilterCore (goTrim "src=")).2 ≠ [] ∧
      ((ParseFilter "src=").Root = none ∧ (ParseFilter "src=").Error ≠ "" ∧
        ∀ fl : Flow, (ParseFilter "src=").Matches fl = true) :=
  ⟨by decide, parse_error_filter_matches_all "src=" (by decide)⟩

/-- C10: a version/ipversion condition whose value is none of 4, v4,
ipv4, 6, v6, ipv6 parses without error ("version=5" yields exactly that
condition node), and evaluation returns true for every flow when not
negated and false for every flow when negated. -/
theorem version_condition_unknown_value_matches_all :
    ((ParseFilter "version=5").Error = "" ∧
      (ParseFilter "version=5").Root =
        some (.condition { Field := "version", Value := "5" })) ∧
    ∀ (c : ConditionNode) (fl : Flow),
      c.Field = "version" ∨ c.Field = "ipversion" →
      c.Value ≠ "4" → c.Value ≠ "v4" → c.Value ≠ "ipv4" →
      c.Value ≠ "6" → c.Value ≠ "v6" → c.Value ≠ "ipv6" →
      c.Evaluate fl = !c.Negated := by
  refine ⟨⟨by decide, rfl⟩, ?_⟩
  intro c fl hf h4 hv4 hip4 h6 hv6 hip6
  have hval1 : ¬(c.Value = "4" ∨ c.Value = "v4" ∨ c.Value = "ipv4") := by
    rintro (hx | hx | hx)
    exacts [h4 hx, hv4 hx, hip4 hx]
  have hval2 : ¬(c.Value = "6" ∨ c.Value = "v6" ∨ c.Value = "ipv6") := by
    rintro (hx | hx | hx)
    exacts [h6 hx, hv6 hx, hip6 hx]
  rcases hf with hfv | hfv <;> cases hb : c.Negated <;>
    simp [ConditionNode.Evaluate, hfv, hb, hval1, hval2]

theorem version_condition_unknown_value_matches_all_witness :
    ({ Field := "version", Value := "5" } : ConditionNode).Evaluate {} = !false :=
  version_condition_unknown_value_matches_all.2
    { Field := "version", Value := "5" } {} (Or.inl rfl)
    (by decide) (by decide) (by decide) (by decide) (by decide) (by decide)

theorem topcut_mono {α : Type} (l : List α) (n m : Nat) (hnm : n ≤ m) :
    ∀ x ∈ (if n < l.length then l.take n else l),
      x ∈ (if m < l.length then l.take m else l) := by
  intro x hx
  by_cases hn : n < l.length
  · rw [if_pos hn] at hx
    by_cases hm : m < l.length
    · rw [if_pos hm]
      have heq : l.take n = (l.take m).take n := by
        rw [List.take_take, Nat.min_eq_left hnm]
      rw [heq] at hx
      exact List.take_subset _ _ hx
    · rw [if_neg hm]
      exact List.take_subset _ _ hx
  · rw [if_neg hn] at hx
    have hm : ¬ m < l.length := by omega
    rw [if_neg hm]
    exact hx

/-- C9: for the same store, filter, cutoff and label oracle, every link
the ip-to-ip Sankey aggregation emits with limit n also appears with
any limit m ≥ n: both results are prefixes of the same
sorted-descending link list. -/
theorem sankey_topn_monotone (resolveLabel : String → String)
    (fs : FlowStore) (filter : Option Filter) (cutoff : Int) (n m : Nat)
    (hnm : n ≤ m) :
    ∀ l ∈ (aggregateIPtoIP resolveLabel fs filter n cutoff).Links,
      l ∈ (aggregateIPtoIP resolveLabel fs filter m cutoff).Links := by
  intro l hl
  unfold aggregateIPtoIP at hl ⊢
  dsimp only at hl ⊢
  exact topcut_mono _ n m hnm l hl

theorem sankey_topn_monotone_witness :
    1 ≤ 2 ∧
      ({ Source := "10.0.0.1", Target := "10.0.0.2", Value := 500,
         Packets := 5, Protocol := "TCP", Flows := 1 } : SankeyLink) ∈
        (aggregateIPtoIP (fun s => s) sankeySampleStore none 2 0).Links :=
  ⟨by decide,
   sankey_topn_monotone (fun s => s) sankeySampleStore none 0 1 2 (by decide)
     _ (by decide)⟩

end NFC
